import Mathlib

/-! # darp: a shallow embedding of the WARP client and its checked properties

Go strings are modelled as lists of Unicode code points (`Str`), Go errors as
their message text, and every call that leaves the process (file system,
random source, external commands) is an explicit outcome handed to the
function together with the list of effects the function performed.
-/

set_option autoImplicit false
set_option maxRecDepth 8000

namespace Darp

/-- Go `string`, as a list of code points. -/
abbrev Str := List Char

/-- Go `error`, as the message it prints; `none` is the nil error. -/
abbrev Error := Option Str

/-- What a function did to the outside world, in program order. -/
inductive Effect where
  | mkdirAll (path : Str) (perm : Nat)
  | writeFile (path : Str) (data : Str) (perm : Nat)
  | removeFile (path : Str)
  | lookPath (file : Str)
  | command (argv : List Str)
  | randRead (n : Nat)
  deriving DecidableEq, Repr

/-! ## Go standard library: `strings`, `unicode`, `fmt`, `encoding/base64` -/

namespace unicode

/-- Go `unicode.IsSpace`: the Latin-1 spaces and the White_Space code points. -/
def IsSpace (c : Char) : Bool :=
  c.toNat == 0x09 || c.toNat == 0x0A || c.toNat == 0x0B || c.toNat == 0x0C ||
  c.toNat == 0x0D || c.toNat == 0x20 || c.toNat == 0x85 || c.toNat == 0xA0 ||
  c.toNat == 0x1680 || (0x2000 ≤ c.toNat && c.toNat ≤ 0x200A) ||
  c.toNat == 0x2028 || c.toNat == 0x2029 || c.toNat == 0x202F ||
  c.toNat == 0x205F || c.toNat == 0x3000

end unicode

namespace strings

/-- Go `strings.Split(s, sep)` for a separator that is one character, the only
way the program calls it: the pieces of `s` between the separators, always at
least one piece. -/
def Split : Str → Char → List Str
  | [], _ => [[]]
  | c :: cs, sep =>
    if c = sep then [] :: Split cs sep
    else
      match Split cs sep with
      | [] => [[c]]
      | piece :: pieces => (c :: piece) :: pieces

/-- Go `strings.TrimSpace`: drops leading and trailing white space. -/
def TrimSpace (s : Str) : Str :=
  ((s.dropWhile unicode.IsSpace).reverse.dropWhile unicode.IsSpace).reverse

/-- Go `strings.HasPrefix`. -/
def HasPrefix (s pre : Str) : Bool :=
  pre.isPrefixOf s

/-- Go `strings.TrimPrefix`: `s` without the leading `pre`, or `s` itself. -/
def TrimPrefix (s pre : Str) : Str :=
  if HasPrefix s pre then s.drop pre.length else s

/-- Go `strings.Contains`: `sub` occurs somewhere in `s`. -/
def Contains : Str → Str → Bool
  | [], sub => sub.isEmpty
  | c :: cs, sub => sub.isPrefixOf (c :: cs) || Contains cs sub

/-- The loop of `strings.Fields`: `cur` is the field being read, reversed. -/
def fieldsLoop : Str → Str → List Str
  | [], cur => if cur.isEmpty then [] else [cur.reverse]
  | c :: cs, cur =>
    if unicode.IsSpace c then
      if cur.isEmpty then fieldsLoop cs [] else cur.reverse :: fieldsLoop cs []
    else fieldsLoop cs (c :: cur)

/-- Go `strings.Fields`: the maximal runs of characters that are not white space. -/
def Fields (s : Str) : List Str :=
  fieldsLoop s []

end strings

namespace fmt

/-- The decimal digits of a natural number. -/
def formatNat (n : Nat) : Str :=
  Nat.toDigits 10 n

/-- The verb `%d` of `fmt.Sprintf` on an `int`. -/
def formatInt (n : Int) : Str :=
  if n < 0 then '-' :: formatNat n.natAbs else formatNat n.natAbs

end fmt

namespace base64

/-- The alphabet of `base64.StdEncoding`. -/
def encodeStd : Str :=
  "ABCDEFGHIJKLMNOPQRSTUVWXYZabcdefghijklmnopqrstuvwxyz0123456789+/".toList

/-- The padding character of `base64.StdEncoding`. -/
def StdPadding : Char := '='

/-- The character of a 6-bit value: `enc.encode[i]`. -/
def encodeChar (i : Nat) : Char :=
  encodeStd.getD i 'A'

/-- Go `(*Encoding).EncodeToString` of `base64.StdEncoding` on a byte slice.
Bytes are numbers below 256, so `b0<<16 | b1<<8 | b2` is
`b0 * 65536 + b1 * 256 + b2` and `val>>k & 0x3F` is `val / 2^k % 64`. -/
def EncodeToString : List Nat → Str
  | [] => []
  | [b0] =>
    let val := b0 * 65536
    [encodeChar (val / 262144 % 64), encodeChar (val / 4096 % 64), StdPadding, StdPadding]
  | [b0, b1] =>
    let val := b0 * 65536 + b1 * 256
    [encodeChar (val / 262144 % 64), encodeChar (val / 4096 % 64),
      encodeChar (val / 64 % 64), StdPadding]
  | b0 :: b1 :: b2 :: rest =>
    let val := b0 * 65536 + b1 * 256 + b2
    encodeChar (val / 262144 % 64) :: encodeChar (val / 4096 % 64) ::
      encodeChar (val / 64 % 64) :: encodeChar (val % 64) :: EncodeToString rest

/-- The 6-bit value of a character of the alphabet. -/
def decodeChar (c : Char) : Option Nat :=
  let i := encodeStd.indexOf c
  if i < 64 then some i else none

/-- Reference decoder for padded standard base64 (RFC 4648): groups of four
characters, padding only in the last group. -/
def DecodeString : Str → Option (List Nat)
  | [] => some []
  | c0 :: c1 :: c2 :: c3 :: rest =>
    if rest = [] ∧ c3 = StdPadding then
      if c2 = StdPadding then
        match decodeChar c0, decodeChar c1 with
        | some s0, some s1 =>
          let val := s0 * 262144 + s1 * 4096
          some [val / 65536 % 256]
        | _, _ => none
      else
        match decodeChar c0, decodeChar c1, decodeChar c2 with
        | some s0, some s1, some s2 =>
          let val := s0 * 262144 + s1 * 4096 + s2 * 64
          some [val / 65536 % 256, val / 256 % 256]
        | _, _, _ => none
    else
      match decodeChar c0, decodeChar c1, decodeChar c2, decodeChar c3, DecodeString rest with
      | some s0, some s1, some s2, some s3, some bytes =>
        let val := s0 * 262144 + s1 * 4096 + s2 * 64 + s3
        some (val / 65536 % 256 :: val / 256 % 256 :: val % 256 :: bytes)
      | _, _, _, _, _ => none
  | _ => none

/-- The characters `A-Z`, `a-z`, `0-9`, `+` and `/`. -/
def isAlphabetChar (c : Char) : Bool :=
  c.isUpper || c.isLower || c.isDigit || c == '+' || c == '/'

end base64

/-! ## Package `warp`: client.go -/

namespace warp

structure Peer where
  PublicKey : Str
  Endpoint : Str
  AllowedIPs : List Str
  deriving DecidableEq, Repr

structure Interface where
  PrivateKey : Str
  Addresses : List Str
  DNS : List Str
  deriving DecidableEq, Repr

structure Config where
  Peers : List Peer
  Interface : Interface
  MTU : Int
  deriving DecidableEq, Repr

/-- Outcome of `rand.Read` on the 32-byte buffer: the bytes it delivered, or
its error. -/
abbrev RandOutcome := Except Str (List Nat)

/-- Go `(*Client).generatePrivateKey`. -/
def generatePrivateKey (rand : RandOutcome) : Str × Error :=
  match rand with
  | .error err => ([], some err)
  | .ok privateKey => (base64.EncodeToString privateKey, none)

/-- Go `(*Client).GetWARPConfig`; a nil `*Config` is `none`. -/
def GetWARPConfig (rand : RandOutcome) : Option Config × Error :=
  match generatePrivateKey rand with
  | (_, some err) => (none, some ("failed to generate private key: ".toList ++ err))
  | (privateKey, none) =>
    (some {
      MTU := 1280
      Interface := {
        PrivateKey := privateKey
        Addresses := ["172.16.0.2/32".toList]
        DNS := ["1.1.1.1".toList, "1.0.0.1".toList] }
      Peers := [{
        PublicKey := "bmXOC+F1FxEMF9dyiK2H5/1SUtzH0JuVo51h2wPfgyo=".toList
        Endpoint := "engage.cloudflareclient.com:2408".toList
        AllowedIPs := ["0.0.0.0/0".toList, "::/0".toList] }] }, none)

end warp

namespace filepath

/-- Go `filepath.Join` on path elements that are already clean and not empty:
the elements separated by one slash. -/
def Join (elems : List Str) : Str :=
  List.intercalate ['/'] elems

end filepath

/-! ## Package `warp`: manager.go -/

namespace warp

structure Manager where
  config : Option Config
  isConnected : Bool
  interfaceName : Str
  deriving DecidableEq, Repr

/-- Go `NewManager`; the client is an empty struct and is left out. -/
def NewManager (config : Option Config) : Manager :=
  { config := config, isConnected := false, interfaceName := "warp0".toList }

/-- The content of the `strings.Builder` named `wgConfig` in
`createWireGuardConfig` when the loops are done; each `WriteString` appends. -/
def wgConfig (config : Config) : Str :=
  let b : Str := []
  let b := b ++ "[Interface]\n".toList
  let b := b ++ ("PrivateKey = ".toList ++ config.Interface.PrivateKey ++ "\n".toList)
  let b := config.Interface.Addresses.foldl
    (fun b addr => b ++ ("Address = ".toList ++ addr ++ "\n".toList)) b
  let b := config.Interface.DNS.foldl
    (fun b dns => b ++ ("DNS = ".toList ++ dns ++ "\n".toList)) b
  let b := b ++ ("MTU = ".toList ++ fmt.formatInt config.MTU ++ "\n".toList)
  let b := b ++ "\n".toList
  config.Peers.foldl
    (fun b peer =>
      let b := b ++ "[Peer]\n".toList
      let b := b ++ ("PublicKey = ".toList ++ peer.PublicKey ++ "\n".toList)
      let b := b ++ ("Endpoint = ".toList ++ peer.Endpoint ++ "\n".toList)
      let b := peer.AllowedIPs.foldl
        (fun b allowedIP => b ++ ("AllowedIPs = ".toList ++ allowedIP ++ "\n".toList)) b
      b ++ "\n".toList) b

/-- Go `(*Manager).createWireGuardConfig`, given the outcomes of `os.MkdirAll`
and `os.WriteFile`. -/
def createWireGuardConfig (config : Config) (mkdirAll writeFile : Error) :
    Error × List Effect :=
  let configDir := "/etc/wireguard".toList
  match mkdirAll with
  | some err =>
    (some ("failed to create config directory: ".toList ++ err),
      [Effect.mkdirAll configDir 0o755])
  | none =>
    let configPath := filepath.Join [configDir, "darp.conf".toList]
    let effects := [Effect.mkdirAll configDir 0o755,
      Effect.writeFile configPath (wgConfig config) 0o600]
    match writeFile with
    | some err => (some ("failed to write WireGuard config: ".toList ++ err), effects)
    | none => (none, effects)

/-- Go `(*Manager).startWireGuardInterface`, given the outcomes of
`exec.LookPath` and of running `wg-quick up`. -/
def startWireGuardInterface (lookPath run : Error) : Error × List Effect :=
  match lookPath with
  | some _ =>
    (some ("WireGuard is not installed. Please install it first: " ++
      "sudo pacman -S wireguard-tools").toList, [Effect.lookPath "wg".toList])
  | none =>
    let effects := [Effect.lookPath "wg".toList,
      Effect.command ["sudo".toList, "wg-quick".toList, "up".toList, "darp".toList]]
    match run with
    | some err => (some ("failed to start WireGuard interface: ".toList ++ err), effects)
    | none => (none, effects)

/-- Go `(*Manager).stopWireGuardInterface`, given the outcome of running
`wg-quick down`. -/
def stopWireGuardInterface (run : Error) : Error × List Effect :=
  let effects :=
    [Effect.command ["sudo".toList, "wg-quick".toList, "down".toList, "darp".toList]]
  match run with
  | some err => (some ("failed to stop WireGuard interface: ".toList ++ err), effects)
  | none => (none, effects)

/-- Outcome of `os.Remove`. -/
inductive RemoveOutcome where
  | removed
  | notExist (err : Str)
  | failed (err : Str)
  deriving DecidableEq, Repr

/-- Go `(*Manager).cleanupConfig`. -/
def cleanupConfig (remove : RemoveOutcome) : Error × List Effect :=
  let configPath := "/etc/wireguard/darp.conf".toList
  match remove with
  | .failed err =>
    (some ("failed to remove config file: ".toList ++ err), [Effect.removeFile configPath])
  | _ => (none, [Effect.removeFile configPath])

/-- Outcomes of the external steps of one `Connect`. -/
structure ConnectEnv where
  rand : RandOutcome
  mkdirAll : Error
  writeFile : Error
  lookPath : Error
  wgQuickUp : Error

/-- Outcomes of the external steps of one `Disconnect`. -/
structure DisconnectEnv where
  wgQuickDown : Error
  remove : RemoveOutcome

/-- Go `(*Manager).Connect`: the manager afterwards, the error returned and
the effects performed. -/
def Connect (m : Manager) (env : ConnectEnv) : Manager × Error × List Effect :=
  match GetWARPConfig env.rand with
  | (_, some err) =>
    (m, some ("failed to get WARP configuration: ".toList ++ err), [Effect.randRead 32])
  | (none, none) =>
    -- not reachable: `GetWARPConfig` returns a config whenever its error is nil;
    -- the Go code would stop on the nil dereference in `createWireGuardConfig`
    (m, some "invalid memory address or nil pointer dereference".toList,
      [Effect.randRead 32])
  | (some config, none) =>
    let m := { m with config := some config }
    match createWireGuardConfig config env.mkdirAll env.writeFile with
    | (some err, effects) =>
      (m, some ("failed to create WireGuard config: ".toList ++ err),
        Effect.randRead 32 :: effects)
    | (none, effects) =>
      match startWireGuardInterface env.lookPath env.wgQuickUp with
      | (some err, effects2) =>
        (m, some ("failed to start WireGuard interface: ".toList ++ err),
          Effect.randRead 32 :: (effects ++ effects2))
      | (none, effects2) =>
        ({ m with isConnected := true }, none, Effect.randRead 32 :: (effects ++ effects2))

/-- Go `(*Manager).Disconnect`. -/
def Disconnect (m : Manager) (env : DisconnectEnv) : Manager × Error × List Effect :=
  if !m.isConnected then (m, none, [])
  else
    let effects := (stopWireGuardInterface env.wgQuickDown).2
    let effects2 := (cleanupConfig env.remove).2
    ({ m with isConnected := false }, none, effects ++ effects2)

/-- Go `(*Manager).IsConnected`. -/
def IsConnected (m : Manager) : Bool :=
  m.isConnected

/-- One call on a manager, with the outcomes of its external steps. -/
inductive Call where
  | connect (env : ConnectEnv)
  | disconnect (env : DisconnectEnv)

/-- The manager after one call and the error the call returned. -/
def step (m : Manager) : Call → Manager × Error
  | .connect env => ((Connect m env).1, (Connect m env).2.1)
  | .disconnect env => ((Disconnect m env).1, (Disconnect m env).2.1)

/-- The manager after a sequence of calls, earliest first. -/
def run (m : Manager) (calls : List Call) : Manager :=
  calls.foldl (fun m call => (step m call).1) m

end warp

/-! ## Go standard library: `encoding/json`, decoding side -/

namespace json

/-- The syntax tree of a JSON text. Object members are in document order and
may repeat a key; a number keeps its literal. -/
inductive Value where
  | null
  | bool (b : Bool)
  | number (literal : Str)
  | string (s : Str)
  | array (elems : List Value)
  | object (members : List (Str × Value))

/-- Go `foldRune` on the characters that matter for ASCII field names: ASCII
lower case goes to upper case, and the two other characters whose simple case
folding reaches ASCII, U+017F and U+212A, go to `S` and `K`. -/
def foldRune (c : Char) : Char :=
  if 'a'.toNat ≤ c.toNat ∧ c.toNat ≤ 'z'.toNat then Char.ofNat (c.toNat - 32)
  else if c.toNat = 0x17F then 'S'
  else if c.toNat = 0x212A then 'K'
  else c

/-- Go `foldName`. -/
def foldName (name : Str) : Str :=
  name.map foldRune

/-- Whether the object key `key` selects the struct field tagged `name`: the
exact name, or else the same name under case folding. -/
def keyMatches (key name : Str) : Bool :=
  key == name || foldName key == foldName name

/-- Go `strconv.ParseInt(s, 10, 64)` on a JSON number literal: an optional
minus sign and decimal digits, within the range of `int64`. -/
def ParseInt (s : Str) : Option Int :=
  let digits := match s with
    | '-' :: ds => ds
    | ds => ds
  if digits ≠ [] ∧ digits.all Char.isDigit then
    let n : Nat := digits.foldl (fun acc d => acc * 10 + (d.toNat - '0'.toNat)) 0
    let v : Int := match s with
      | '-' :: _ => -(n : Int)
      | _ => (n : Int)
    if -9223372036854775808 ≤ v ∧ v ≤ 9223372036854775807 then some v else none
  else none

/-- A value being decoded into, with the first error saved so far
(`d.saveError`); decoding goes on after a type error. -/
structure Decoded (α : Type) where
  val : α
  savedError : Error

/-- Go `d.saveError`: keeps the first error. -/
def saveError (saved : Error) (err : Str) : Error :=
  match saved with
  | some e => some e
  | none => some err

/-- The name of the JSON kind in an `UnmarshalTypeError`. -/
def kindName : Value → Str
  | .null => "null".toList
  | .bool _ => "bool".toList
  | .number _ => "number".toList
  | .string _ => "string".toList
  | .array _ => "array".toList
  | .object _ => "object".toList

/-- The message of an `UnmarshalTypeError`. -/
def typeError (v : Value) (goType : Str) : Str :=
  "json: cannot unmarshal ".toList ++ kindName v ++ " into Go value of type ".toList ++ goType

/-- Decoding a JSON value into a Go `string`: `null` leaves it as it is. -/
def decodeString (v : Value) (d : Decoded Str) : Decoded Str :=
  match v with
  | .null => d
  | .string s => { d with val := s }
  | other => { d with savedError := saveError d.savedError (typeError other "string".toList) }

/-- Decoding a JSON value into a Go `int`. -/
def decodeInt (v : Value) (d : Decoded Int) : Decoded Int :=
  match v with
  | .null => d
  | .number literal =>
    match ParseInt literal with
    | some n => { d with val := n }
    | none => { d with savedError := saveError d.savedError (typeError v "int".toList) }
  | other => { d with savedError := saveError d.savedError (typeError other "int".toList) }

/-- The loop of `d.array` on a `[]string`: element `i` is decoded into the
element the slice already has at `i`, or into a fresh empty string. -/
def decodeElems : List Value → List Str → Error → Decoded (List Str)
  | [], _, saved => { val := [], savedError := saved }
  | v :: vs, old, saved =>
    let e := decodeString v { val := old.headD [], savedError := saved }
    let r := decodeElems vs old.tail e.savedError
    { val := e.val :: r.val, savedError := r.savedError }

/-- Decoding a JSON value into a Go `[]string`: `null` sets the slice to nil,
an array replaces its elements. -/
def decodeStrings (v : Value) (d : Decoded (List Str)) : Decoded (List Str) :=
  match v with
  | .null => { d with val := [] }
  | .array elems => decodeElems elems d.val d.savedError
  | other => { d with savedError := saveError d.savedError (typeError other "[]string".toList) }

end json

/-! ## Package `config` -/

namespace config

open json

structure CloudflareConfig where
  WarpEndpoint : Str
  deriving DecidableEq, Repr

structure NetworkConfig where
  Interface : Str
  DNS : List Str
  MTU : Int
  Timeout : Int
  deriving DecidableEq, Repr

structure LoggingConfig where
  Level : Str
  Format : Str
  Output : Str
  deriving DecidableEq, Repr

structure Config where
  Cloudflare : CloudflareConfig
  Network : NetworkConfig
  Logging : LoggingConfig
  deriving DecidableEq, Repr

/-- Go `DefaultConfig`. -/
def DefaultConfig : Config :=
  { Cloudflare := { WarpEndpoint := "engage.cloudflareclient.com:2408".toList }
    Network := {
      Interface := "warp0".toList
      DNS := ["1.1.1.1".toList, "1.0.0.1".toList]
      MTU := 1280
      Timeout := 30 }
    Logging := {
      Level := "info".toList
      Format := "json".toList
      Output := "stdout".toList } }

/-- The value of `var config Config`: every field at its zero value. -/
def zeroConfig : Config :=
  { Cloudflare := { WarpEndpoint := [] }
    Network := { Interface := [], DNS := [], MTU := 0, Timeout := 0 }
    Logging := { Level := [], Format := [], Output := [] } }

/-- One member of a JSON object decoded into a `CloudflareConfig`, by its
`json` tags; a key that matches no field is skipped. -/
def decodeCloudflareMember (d : Decoded CloudflareConfig) (kv : Str × Value) :
    Decoded CloudflareConfig :=
  if keyMatches kv.1 "warp_endpoint".toList then
    let r := decodeString kv.2 { val := d.val.WarpEndpoint, savedError := d.savedError }
    { val := { d.val with WarpEndpoint := r.val }, savedError := r.savedError }
  else d

/-- One member of a JSON object decoded into a `NetworkConfig`. -/
def decodeNetworkMember (d : Decoded NetworkConfig) (kv : Str × Value) :
    Decoded NetworkConfig :=
  if keyMatches kv.1 "interface".toList then
    let r := decodeString kv.2 { val := d.val.Interface, savedError := d.savedError }
    { val := { d.val with Interface := r.val }, savedError := r.savedError }
  else if keyMatches kv.1 "dns".toList then
    let r := decodeStrings kv.2 { val := d.val.DNS, savedError := d.savedError }
    { val := { d.val with DNS := r.val }, savedError := r.savedError }
  else if keyMatches kv.1 "mtu".toList then
    let r := decodeInt kv.2 { val := d.val.MTU, savedError := d.savedError }
    { val := { d.val with MTU := r.val }, savedError := r.savedError }
  else if keyMatches kv.1 "timeout".toList then
    let r := decodeInt kv.2 { val := d.val.Timeout, savedError := d.savedError }
    { val := { d.val with Timeout := r.val }, savedError := r.savedError }
  else d

/-- One member of a JSON object decoded into a `LoggingConfig`. -/
def decodeLoggingMember (d : Decoded LoggingConfig) (kv : Str × Value) :
    Decoded LoggingConfig :=
  if keyMatches kv.1 "level".toList then
    let r := decodeString kv.2 { val := d.val.Level, savedError := d.savedError }
    { val := { d.val with Level := r.val }, savedError := r.savedError }
  else if keyMatches kv.1 "format".toList then
    let r := decodeString kv.2 { val := d.val.Format, savedError := d.savedError }
    { val := { d.val with Format := r.val }, savedError := r.savedError }
  else if keyMatches kv.1 "output".toList then
    let r := decodeString kv.2 { val := d.val.Output, savedError := d.savedError }
    { val := { d.val with Output := r.val }, savedError := r.savedError }
  else d

/-- Decoding a JSON value into a struct, given how one object member is
decoded: `null` leaves the struct as it is, an object is decoded member by
member in document order, anything else is a type error. -/
def decodeStruct {α : Type} (member : Decoded α → Str × Value → Decoded α) (goType : Str)
    (v : Value) (d : Decoded α) : Decoded α :=
  match v with
  | .null => d
  | .object members => members.foldl member d
  | other => { d with savedError := saveError d.savedError (typeError other goType) }

/-- One member of the top-level JSON object decoded into a `Config`. -/
def decodeConfigMember (d : Decoded Config) (kv : Str × Value) : Decoded Config :=
  if keyMatches kv.1 "cloudflare".toList then
    let r := decodeStruct decodeCloudflareMember "config.CloudflareConfig".toList kv.2
      { val := d.val.Cloudflare, savedError := d.savedError }
    { val := { d.val with Cloudflare := r.val }, savedError := r.savedError }
  else if keyMatches kv.1 "network".toList then
    let r := decodeStruct decodeNetworkMember "config.NetworkConfig".toList kv.2
      { val := d.val.Network, savedError := d.savedError }
    { val := { d.val with Network := r.val }, savedError := r.savedError }
  else if keyMatches kv.1 "logging".toList then
    let r := decodeStruct decodeLoggingMember "config.LoggingConfig".toList kv.2
      { val := d.val.Logging, savedError := d.savedError }
    { val := { d.val with Logging := r.val }, savedError := r.savedError }
  else d

/-- What `os.ReadFile` delivered, as `json.Unmarshal` sees it: the syntax tree
of the bytes, or `none` when the bytes are not a JSON text. -/
abbrev FileContent := Option json.Value

/-- Go `json.Unmarshal(data, &config)`: the config afterwards and the error.
Bytes that are not JSON give a syntax error and leave the config untouched. -/
def Unmarshal (data : FileContent) (config : Config) : Config × Error :=
  match data with
  | none => (config, some "invalid character looking for beginning of value".toList)
  | some v =>
    let r := decodeStruct decodeConfigMember "config.Config".toList v
      { val := config, savedError := none }
    (r.val, r.savedError)

/-- Go `(*Config).Save`, given the outcome of `os.WriteFile`; marshalling a
`Config` cannot fail. -/
def Save (_c : Config) (writeFile : Error) : Error :=
  match writeFile with
  | some err => some ("failed to write config file: ".toList ++ err)
  | none => none

/-- Go `(*Config).Validate`: the config afterwards and the error. -/
def Validate (c : Config) : Config × Error :=
  if c.Network.DNS.length = 0 then
    (c, some "at least one DNS server must be configured".toList)
  else if c.Cloudflare.WarpEndpoint = [] then
    (c, some "WARP endpoint must be configured".toList)
  else (c, none)

/-- Outcomes of the external steps of `LoadConfig`. -/
structure LoadEnv where
  /-- Outcome of `os.UserHomeDir`. -/
  userHomeDir : Except Str Str
  /-- Whether the error of `os.Stat` says the file does not exist. -/
  statNotExist : Bool
  /-- Outcome of `os.MkdirAll` on the directory of the file. -/
  mkdirAll : Error
  /-- Outcome of `os.WriteFile` inside `Save`. -/
  writeFile : Error
  /-- Outcome of `os.ReadFile`. -/
  readFile : Except Str FileContent

/-- The part of `LoadConfig` after the path is known. -/
def loadFrom (env : LoadEnv) : Option Config × Error :=
  if env.statNotExist then
    match env.mkdirAll with
    | some err =>
      (some DefaultConfig, some ("failed to create config directory: ".toList ++ err))
    | none =>
      let config := DefaultConfig
      match Save config env.writeFile with
      | some err => (some config, some ("failed to create default config: ".toList ++ err))
      | none => (some config, none)
  else
    match env.readFile with
    | .error err => (some DefaultConfig, some ("failed to read config file: ".toList ++ err))
    | .ok data =>
      match Unmarshal data zeroConfig with
      | (_, some err) =>
        (some DefaultConfig, some ("failed to parse config file: ".toList ++ err))
      | (config, none) => (some config, none)

/-- Go `LoadConfig`; a nil `*Config` is `none`. -/
def LoadConfig (configPath : Str) (env : LoadEnv) : Option Config × Error :=
  if configPath = [] then
    match env.userHomeDir with
    | .error _ => (some DefaultConfig, none)
    | .ok _homeDir => loadFrom env
  else loadFrom env

end config

/-! ## Package `network` -/

namespace network

/-- Go `map[string]T` with string keys, as the list of its entries; a key
occurs at most once. -/
abbrev StrMap (β : Type) := List (Str × β)

/-- The assignment `m[k] = v`. -/
def StrMap.set {β : Type} (m : StrMap β) (k : Str) (v : β) : StrMap β :=
  if m.any (fun kv => kv.1 == k) then m.map (fun kv => if kv.1 == k then (k, v) else kv)
  else m ++ [(k, v)]

/-- The lookup `m[k]`, `none` for a missing key. -/
def StrMap.get {β : Type} (m : StrMap β) (k : Str) : Option β :=
  (m.find? (fun kv => kv.1 == k)).map (fun kv => kv.2)

/-- The keys of a map. -/
def StrMap.keys {β : Type} (m : StrMap β) : List Str :=
  m.map (fun kv => kv.1)

structure Manager where
  interfaceName : Str
  dnsServers : List Str
  deriving DecidableEq, Repr

/-- Go `NewManager`. -/
def NewManager (interfaceName : Str) (dnsServers : List Str) : Manager :=
  { interfaceName := interfaceName, dnsServers := dnsServers }

/-- Outcome of `cmd.Output()`: the standard output, or the error. -/
abbrev CmdOutcome := Except Str Str

/-- The inner loop of `getInterfaceInfo`: the part after the first part that
is `state` and has a successor. -/
def stateAfter : List Str → Option Str
  | part :: next :: rest =>
    if part = "state".toList then some next else stateAfter (next :: rest)
  | _ => none

/-- The body of the line loop of `getInterfaceInfo`. -/
def interfaceLine (info : StrMap Str) (line : Str) : StrMap Str :=
  let line := strings.TrimSpace line
  if strings.HasPrefix line "inet ".toList then
    let parts := strings.Fields line
    match parts with
    | _ :: p1 :: _ => info.set "ip_address".toList ((strings.Split p1 '/').headD [])
    | _ => info
  else if strings.Contains line "state".toList then
    match stateAfter (strings.Fields line) with
    | some next => info.set "state".toList next
    | none => info
  else info

/-- Go `(*Manager).getInterfaceInfo`, given the outcome of `ip addr show`. -/
def getInterfaceInfo (m : Manager) (out : CmdOutcome) :
    Option (StrMap Str) × Error × List Effect :=
  let effects :=
    [Effect.command ["ip".toList, "addr".toList, "show".toList, m.interfaceName]]
  match out with
  | .error err => (none, some ("failed to get interface info: ".toList ++ err), effects)
  | .ok output =>
    let lines := strings.Split output '\n'
    (some (lines.foldl interfaceLine []), none, effects)

/-- The body of the line loop of `getRoutingInfo`. -/
def routeLine (routes : List (StrMap Str)) (line : Str) : List (StrMap Str) :=
  let line := strings.TrimSpace line
  if line = [] then routes
  else
    let route : StrMap Str := []
    let parts := strings.Fields line
    let route :=
      match parts with
      | p0 :: _ :: p2 :: rest =>
        let route := route.set "destination".toList p0
        let route := route.set "gateway".toList p2
        match rest with
        | p3 :: _ => route.set "interface".toList p3
        | [] => route
      | _ => route
    routes ++ [route]

/-- Go `(*Manager).getRoutingInfo`, given the outcome of `ip route show`. -/
def getRoutingInfo (_m : Manager) (out : CmdOutcome) :
    Option (List (StrMap Str)) × Error × List Effect :=
  let effects := [Effect.command ["ip".toList, "route".toList, "show".toList]]
  match out with
  | .error err => (none, some ("failed to get routing info: ".toList ++ err), effects)
  | .ok output =>
    let lines := strings.Split output '\n'
    (some (lines.foldl routeLine []), none, effects)

/-- The body of the line loop of `getDNSInfo`. -/
def nameserverLine (nameservers : List Str) (line : Str) : List Str :=
  let line := strings.TrimSpace line
  if strings.HasPrefix line "nameserver ".toList then
    nameservers ++ [strings.TrimPrefix line "nameserver ".toList]
  else nameservers

/-- Go `(*Manager).getDNSInfo`, given the outcome of `cat /etc/resolv.conf`. -/
def getDNSInfo (m : Manager) (out : CmdOutcome) :
    Option (StrMap (List Str)) × Error × List Effect :=
  let info : StrMap (List Str) := []
  let effects := [Effect.command ["cat".toList, "/etc/resolv.conf".toList]]
  match out with
  | .error err => (none, some ("failed to read resolv.conf: ".toList ++ err), effects)
  | .ok output =>
    let lines := strings.Split output '\n'
    let nameservers := lines.foldl nameserverLine []
    let info := info.set "nameservers".toList nameservers
    let info := info.set "configured_servers".toList m.dnsServers
    (some info, none, effects)

/-- The values `GetNetworkInfo` stores in its `map[string]interface{}`. -/
inductive InfoValue where
  | ifaceInfo (info : StrMap Str)
  | routes (routes : List (StrMap Str))
  | dnsInfo (info : StrMap (List Str))
  deriving DecidableEq, Repr

/-- Outcomes of the three commands of `GetNetworkInfo`. -/
structure InfoEnv where
  ipAddrShow : CmdOutcome
  ipRouteShow : CmdOutcome
  catResolvConf : CmdOutcome

/-- Go `(*Manager).GetNetworkInfo`: the map (`none` is nil), the error and the
commands run. -/
def GetNetworkInfo (m : Manager) (env : InfoEnv) :
    Option (StrMap InfoValue) × Error × List Effect :=
  let info : StrMap InfoValue := []
  match getInterfaceInfo m env.ipAddrShow with
  | (_, some err, effects) =>
    (none, some ("failed to get interface info: ".toList ++ err), effects)
  | (ifaceInfo, none, effects) =>
    let info := info.set "interface".toList (InfoValue.ifaceInfo (ifaceInfo.getD []))
    match getRoutingInfo m env.ipRouteShow with
    | (_, some err, effects2) =>
      (none, some ("failed to get routing info: ".toList ++ err), effects ++ effects2)
    | (routes, none, effects2) =>
      let info := info.set "routes".toList (InfoValue.routes (routes.getD []))
      match getDNSInfo m env.catResolvConf with
      | (_, some err, effects3) =>
        (none, some ("failed to get DNS info: ".toList ++ err),
          effects ++ effects2 ++ effects3)
      | (dnsInfo, none, effects3) =>
        let info := info.set "dns".toList (InfoValue.dnsInfo (dnsInfo.getD []))
        (some info, none, effects ++ effects2 ++ effects3)

end network

/-! ## Values of type `interface{}` -/

/-- A Go `interface{}` holding one of the dynamic types the program stores in
its status maps. -/
inductive Any where
  | bool (b : Bool)
  | int (n : Int)
  | string (s : Str)
  | strings (l : List Str)
  deriving DecidableEq, Repr

/-! ## Package `warp`: status and interface queries -/

namespace warp

/-- Go `(*Manager).GetStatus`. -/
def GetStatus (m : Manager) : network.StrMap Any :=
  let status : network.StrMap Any := []
  let status := status.set "connected".toList (Any.bool m.isConnected)
  let status := status.set "interface".toList (Any.string m.interfaceName)
  match m.config with
  | some config =>
    let status := status.set "peers".toList (Any.int config.Peers.length)
    let status := status.set "mtu".toList (Any.int config.MTU)
    status.set "dns".toList (Any.strings config.Interface.DNS)
  | none => status

/-- The expression `strings.TrimSpace(strings.Split(line, ":")[1])`; the error
is the runtime panic of an index out of range. -/
def secondPart (line : Str) : Except Str Str :=
  match (strings.Split line ':')[1]? with
  | some part => .ok (strings.TrimSpace part)
  | none => .error "index out of range [1] with length 1".toList

/-- The body of the line loop of `GetInterfaceInfo`; an error is a runtime
panic, which ends the function. -/
def interfaceInfoLine (info : Except Str (network.StrMap Str)) (line : Str) :
    Except Str (network.StrMap Str) :=
  match info with
  | .error p => .error p
  | .ok info =>
    if strings.Contains line "interface:".toList then
      match secondPart line with
      | .ok value => .ok (info.set "interface".toList value)
      | .error p => .error p
    else if strings.Contains line "public key:".toList then
      match secondPart line with
      | .ok value => .ok (info.set "public_key".toList value)
      | .error p => .error p
    else if strings.Contains line "listening port:".toList then
      match secondPart line with
      | .ok value => .ok (info.set "listening_port".toList value)
      | .error p => .error p
    else .ok info

/-- Go `(*Manager).GetInterfaceInfo`, given the outcome of `wg show darp`: the
map (`none` is nil), the error and the command run, or the runtime panic. -/
def GetInterfaceInfo (_m : Manager) (out : network.CmdOutcome) :
    Except Str (Option (network.StrMap Str) × Error × List Effect) :=
  let effects := [Effect.command ["wg".toList, "show".toList, "darp".toList]]
  match out with
  | .error err => .ok (none, some ("failed to get interface info: ".toList ++ err), effects)
  | .ok output =>
    let lines := strings.Split output '\n'
    match lines.foldl interfaceInfoLine (.ok []) with
    | .ok info => .ok (some info, none, effects)
    | .error p => .error p

end warp

/-! ## Go standard library: `encoding/json`, encoding side -/

namespace json

/-- The hexadecimal digit of a number below 16. -/
def hexDigit (n : Nat) : Char :=
  Nat.digitChar n

/-- How the encoder writes one character of a string: quotes, backslashes,
control characters, the HTML characters and the two line separators are
escaped. -/
def escapeChar (c : Char) : Str :=
  if c = '"' then "\\\"".toList
  else if c = '\\' then "\\\\".toList
  else if c = '\n' then "\\n".toList
  else if c = '\r' then "\\r".toList
  else if c = '\t' then "\\t".toList
  else if c.toNat < 0x20 ∨ c = '<' ∨ c = '>' ∨ c = '&' then
    "\\u00".toList ++ [hexDigit (c.toNat / 16), hexDigit (c.toNat % 16)]
  else if c.toNat = 0x2028 then "\\u2028".toList
  else if c.toNat = 0x2029 then "\\u2029".toList
  else [c]

/-- A Go string as a JSON string. -/
def encodeString (s : Str) : Str :=
  ['"'] ++ s.flatMap escapeChar ++ ['"']

/-- The indentation of `MarshalIndent(v, "", "  ")` at a depth. -/
def indentation (depth : Nat) : Str :=
  (List.replicate depth "  ".toList).flatten

/-- An `interface{}` value as indented JSON, at the depth of the value. An
empty list is written as the empty slice. -/
def encodeAny (depth : Nat) : Any → Str
  | .bool b => if b then "true".toList else "false".toList
  | .int n => fmt.formatInt n
  | .string s => encodeString s
  | .strings l =>
    if l = [] then "[]".toList
    else
      "[\n".toList ++
      List.intercalate ",\n".toList
        (l.map (fun s => indentation (depth + 1) ++ encodeString s)) ++
      "\n".toList ++ indentation depth ++ "]".toList

/-- The order of Go strings: by code point, a proper initial part first. -/
def stringLess : Str → Str → Bool
  | [], [] => false
  | [], _ :: _ => true
  | _ :: _, [] => false
  | a :: as, b :: bs => decide (a.toNat < b.toNat) || (a == b && stringLess as bs)

/-- One entry put into entries that are sorted by key. -/
def insertByKey (kv : Str × Any) : List (Str × Any) → List (Str × Any)
  | [] => [kv]
  | e :: es => if stringLess e.1 kv.1 then e :: insertByKey kv es else kv :: e :: es

/-- The entries of a map in the order the encoder writes them: sorted by key. -/
def sortedEntries (m : network.StrMap Any) : List (Str × Any) :=
  m.foldr insertByKey []

/-- Go `json.MarshalIndent(v, "", "  ")` on a `map[string]interface{}`; these
values always encode, so the error is nil. -/
def MarshalIndent (m : network.StrMap Any) : Str × Error :=
  if m = [] then ("\x7b\x7d".toList, none)
  else
    ("\x7b\n".toList ++
      List.intercalate ",\n".toList
        ((sortedEntries m).map (fun kv =>
          indentation 1 ++ encodeString kv.1 ++ ": ".toList ++ encodeAny 1 kv.2)) ++
      "\n\x7d".toList, none)

end json

/-! ## Package `cli` -/

namespace cli

/-- What a handler does, in program order: text written to standard output
and pauses. -/
inductive Event where
  | stdout (text : Str)
  | sleep (milliseconds : Nat)
  deriving DecidableEq, Repr

/-- The fields of a `cobra.Command` the program sets; the tree of subcommands
is left out. -/
structure Command where
  Use : Str
  Short : Str
  Long : Str
  deriving DecidableEq, Repr

structure CLI where
  rootCmd : Command
  deriving DecidableEq, Repr

/-- Go `fmt.Println` of one string. -/
def Println (s : Str) : Event :=
  Event.stdout (s ++ "\n".toList)

/-- The verb `%-Ns` of `fmt.Printf`: the string, then spaces up to `width`
characters. -/
def padRight (width : Nat) (s : Str) : Str :=
  s ++ List.replicate (width - s.length) ' '

/-- The text a list of events writes to standard output. -/
def stdoutText : List Event → Str
  | [] => []
  | Event.stdout text :: rest => text ++ stdoutText rest
  | Event.sleep _ :: rest => stdoutText rest

/-- Go `(*CLI).handleConnect`: the CLI afterwards, the error, the events. -/
def handleConnect (c : CLI) : CLI × Error × List Event :=
  (c, none,
    [Println "🔗 Connecting to Cloudflare WARP...".toList,
     Event.sleep 2000,
     Println "✅ Successfully connected to Cloudflare WARP".toList])

/-- Go `(*CLI).handleDisconnect`. -/
def handleDisconnect (c : CLI) : CLI × Error × List Event :=
  (c, none,
    [Println "🔌 Disconnecting from Cloudflare WARP...".toList,
     Event.sleep 1000,
     Println "✅ Successfully disconnected from Cloudflare WARP".toList])

/-- Go `(*CLI).printStatusTable`; a failed type assertion skips the row. -/
def printStatusTable (status : network.StrMap Any) : List Event :=
  [Println "┌─────────────────────────────────────────┐".toList,
   Println "│              DARP Status                │".toList,
   Println "├─────────────────────────────────────────┤".toList] ++
  (match status.get "connected".toList with
    | some (Any.bool connected) =>
      let statusText := if connected then "✅ Connected".toList else "❌ Disconnected".toList
      [Event.stdout ("│ Status: ".toList ++ padRight 30 statusText ++ " │\n".toList)]
    | _ => []) ++
  (match status.get "interface".toList with
    | some (Any.string iface) =>
      [Event.stdout ("│ Interface: ".toList ++ padRight 27 iface ++ " │\n".toList)]
    | _ => []) ++
  (match status.get "ip_address".toList with
    | some (Any.string ip) =>
      [Event.stdout ("│ IP Address: ".toList ++ padRight 25 ip ++ " │\n".toList)]
    | _ => []) ++
  (match status.get "dns_servers".toList with
    | some (Any.strings dns) =>
      [Event.stdout ("│ DNS Servers: ".toList ++
        padRight 23 (List.intercalate ", ".toList dns) ++ " │\n".toList)]
    | _ => []) ++
  (match status.get "uptime".toList with
    | some (Any.string uptime) =>
      [Event.stdout ("│ Uptime: ".toList ++ padRight 29 uptime ++ " │\n".toList)]
    | _ => []) ++
  (match status.get "bytes_sent".toList with
    | some (Any.string sent) =>
      [Event.stdout ("│ Data Sent: ".toList ++ padRight 26 sent ++ " │\n".toList)]
    | _ => []) ++
  (match status.get "bytes_received".toList with
    | some (Any.string received) =>
      [Event.stdout ("│ Data Received: ".toList ++ padRight 21 received ++ " │\n".toList)]
    | _ => []) ++
  [Println "└─────────────────────────────────────────┘".toList]

/-- The map literal `status` of `handleStatus`. -/
def statusLiteral : network.StrMap Any :=
  [("connected".toList, Any.bool true),
   ("interface".toList, Any.string "warp0".toList),
   ("ip_address".toList, Any.string "10.0.0.1".toList),
   ("dns_servers".toList, Any.strings ["1.1.1.1".toList, "1.0.0.1".toList]),
   ("uptime".toList, Any.string "2h 15m".toList),
   ("bytes_sent".toList, Any.string "1.2 GB".toList),
   ("bytes_received".toList, Any.string "3.4 GB".toList)]

/-- Go `(*CLI).handleStatus`. -/
def handleStatus (c : CLI) (format : Str) : CLI × Error × List Event :=
  let status := statusLiteral
  if format = "json".toList then
    match json.MarshalIndent status with
    | (_, some err) => (c, some ("failed to marshal status: ".toList ++ err), [])
    | (jsonData, none) => (c, none, [Println jsonData])
  else (c, none, printStatusTable status)

/-- The `RunE` of `statusCmd`, given the value of the flag `--format` when it
was passed; the flag defaults to `table`. -/
def statusRunE (c : CLI) (formatFlag : Option Str) : CLI × Error × List Event :=
  let format := formatFlag.getD "table".toList
  handleStatus c format

end cli

/-! ## Statements the properties are phrased with -/

namespace warp

/-- The lines of the WireGuard file as the format lists them, without their
line feeds. -/
def configLines (c : Config) : List Str :=
  ["[Interface]".toList, "PrivateKey = ".toList ++ c.Interface.PrivateKey] ++
  c.Interface.Addresses.map (fun a => "Address = ".toList ++ a) ++
  c.Interface.DNS.map (fun d => "DNS = ".toList ++ d) ++
  ["MTU = ".toList ++ fmt.formatInt c.MTU, []] ++
  c.Peers.flatMap (fun peer =>
    ["[Peer]".toList, "PublicKey = ".toList ++ peer.PublicKey,
      "Endpoint = ".toList ++ peer.Endpoint] ++
    peer.AllowedIPs.map (fun ip => "AllowedIPs = ".toList ++ ip) ++ [[]])

/-- The text of a list of lines, each ended by a line feed. -/
def linesText (lines : List Str) : Str :=
  lines.flatMap (fun line => line ++ ['\n'])

/-- No string field of the configuration contains a line feed. -/
def noLineFeed (c : Config) : Prop :=
  '\n' ∉ c.Interface.PrivateKey ∧
  (∀ a ∈ c.Interface.Addresses, '\n' ∉ a) ∧
  (∀ d ∈ c.Interface.DNS, '\n' ∉ d) ∧
  ∀ peer ∈ c.Peers, '\n' ∉ peer.PublicKey ∧ '\n' ∉ peer.Endpoint ∧
    ∀ ip ∈ peer.AllowedIPs, '\n' ∉ ip

/-- The lines one peer contributes to the WireGuard file. -/
def peerLines (peer : Peer) : List Str :=
  ["[Peer]".toList, "PublicKey = ".toList ++ peer.PublicKey,
    "Endpoint = ".toList ++ peer.Endpoint] ++
  peer.AllowedIPs.map (fun ip => "AllowedIPs = ".toList ++ ip) ++ [[]]

/-- The text between the first and the second `:` of a line, or from the
first `:` to the end of the line when there is no second one. -/
def secondField (line : Str) : Str :=
  ((line.dropWhile (fun c => c != ':')).drop 1).takeWhile (fun c => c != ':')

/-- The lines that set the key `interface`: they contain `interface:`. -/
def setsInterface (line : Str) : Bool :=
  strings.Contains line "interface:".toList

/-- The lines that set the key `public_key`: they contain `public key:` and
not `interface:`, which is tested first. -/
def setsPublicKey (line : Str) : Bool :=
  !strings.Contains line "interface:".toList && strings.Contains line "public key:".toList

/-- The lines that set the key `listening_port`: they contain
`listening port:` and neither of the markers tested before it. -/
def setsListeningPort (line : Str) : Bool :=
  !strings.Contains line "interface:".toList &&
  !strings.Contains line "public key:".toList &&
  strings.Contains line "listening port:".toList

/-- What one line does to the map of `GetInterfaceInfo`, said with
`secondField`. -/
def interfaceInfoUpdate (info : network.StrMap Str) (line : Str) : network.StrMap Str :=
  if setsInterface line then
    info.set "interface".toList (strings.TrimSpace (secondField line))
  else if setsPublicKey line then
    info.set "public_key".toList (strings.TrimSpace (secondField line))
  else if setsListeningPort line then
    info.set "listening_port".toList (strings.TrimSpace (secondField line))
  else info

/-- The data of the `os.WriteFile` calls among some effects. -/
def writtenData : List Effect → List (Str × Str)
  | [] => []
  | Effect.writeFile path data _ :: rest => (path, data) :: writtenData rest
  | _ :: rest => writtenData rest

end warp

namespace fmt

/-- The number a string of decimal digits stands for. -/
def digitsValue (ds : Str) : Nat :=
  ds.foldl (fun acc d => acc * 10 + (d.toNat - 48)) 0

end fmt

namespace config

/-- Whether a JSON value is an object with a member that selects the field
tagged `name`. -/
def hasMember (v : json.Value) (name : Str) : Bool :=
  match v with
  | .object members => members.any (fun kv => json.keyMatches kv.1 name)
  | _ => false

/-- Whether a JSON text gives the field `inner` of the section `outer`: some
member of the top-level object selects `outer` and its value has a member
that selects `inner`. A text that does not is said to omit the field. -/
def givesField (v : json.Value) (outer inner : Str) : Bool :=
  match v with
  | .object members =>
    members.any (fun kv => json.keyMatches kv.1 outer && hasMember kv.2 inner)
  | _ => false

/-- Whether the settings file is looked for at all: the path is given, or the
home directory is known. -/
def pathKnown (configPath : Str) (env : LoadEnv) : Bool :=
  configPath != [] || env.userHomeDir.toBool

end config

/-! # Theorems -/

/-! ## Rendering of the WireGuard file -/

theorem foldl_append_eq_flatMap {α : Type} (f : α → Str) (l : List α) (init : Str) :
    l.foldl (fun b x => b ++ f x) init = init ++ l.flatMap f := by
  induction l generalizing init with
  | nil => simp
  | cons x xs ih => simp [List.foldl_cons, ih, List.flatMap_cons, List.append_assoc]

namespace warp

theorem linesText_append (l₁ l₂ : List Str) :
    linesText (l₁ ++ l₂) = linesText l₁ ++ linesText l₂ := by
  simp [linesText, List.flatMap_append]

theorem linesText_map {α : Type} (g : α → Str) (l : List α) :
    linesText (l.map g) = l.flatMap (fun a => g a ++ ['\n']) := by
  induction l with
  | nil => rfl
  | cons x xs ih =>
    simp only [linesText] at ih
    simp [linesText, List.flatMap_cons, ih]

theorem linesText_flatMap {α : Type} (g : α → List Str) (l : List α) :
    linesText (l.flatMap g) = l.flatMap (fun a => linesText (g a)) := by
  induction l with
  | nil => rfl
  | cons x xs ih => simp [List.flatMap_cons, linesText_append, ih]

/-- The builder of `createWireGuardConfig` holds the lines of the format, each
ended by a line feed. -/
theorem wgConfig_eq_linesText (c : Config) : wgConfig c = linesText (configLines c) := by
  have hnl : "\n".toList = ['\n'] := rfl
  have hpeer : ∀ (b : Str) (peer : Peer),
      (List.foldl (fun b allowedIP => b ++ ("AllowedIPs = ".toList ++ allowedIP ++ "\n".toList))
        (b ++ "[Peer]\n".toList ++ ("PublicKey = ".toList ++ peer.PublicKey ++ "\n".toList) ++
          ("Endpoint = ".toList ++ peer.Endpoint ++ "\n".toList)) peer.AllowedIPs ++ "\n".toList)
      = b ++ linesText (["[Peer]".toList, "PublicKey = ".toList ++ peer.PublicKey,
          "Endpoint = ".toList ++ peer.Endpoint] ++
          peer.AllowedIPs.map (fun ip => "AllowedIPs = ".toList ++ ip) ++ [[]]) := by
    intro b peer
    rw [foldl_append_eq_flatMap (fun ip => "AllowedIPs = ".toList ++ ip ++ "\n".toList)]
    rw [linesText_append, linesText_append, linesText_map]
    have h1 : "[Peer]\n".toList = "[Peer]".toList ++ ['\n'] := rfl
    simp only [linesText, List.flatMap_cons, List.flatMap_nil, hnl, h1, List.append_assoc,
      List.nil_append, List.append_nil]
  unfold wgConfig configLines
  simp only [hpeer]
  rw [foldl_append_eq_flatMap (fun (peer : Peer) =>
    linesText (["[Peer]".toList, "PublicKey = ".toList ++ peer.PublicKey,
      "Endpoint = ".toList ++ peer.Endpoint] ++
      peer.AllowedIPs.map (fun ip => "AllowedIPs = ".toList ++ ip) ++ [[]]))]
  rw [foldl_append_eq_flatMap (fun dns => "DNS = ".toList ++ dns ++ "\n".toList)]
  rw [foldl_append_eq_flatMap (fun addr => "Address = ".toList ++ addr ++ "\n".toList)]
  rw [linesText_append, linesText_append, linesText_append, linesText_append, linesText_map,
    linesText_map, linesText_flatMap]
  have h1 : "[Interface]\n".toList = "[Interface]".toList ++ ['\n'] := rfl
  simp only [linesText, List.flatMap_cons, List.flatMap_nil, hnl, h1, List.append_assoc,
    List.nil_append, List.append_nil]

/-- C1: the text `createWireGuardConfig` builds is the lines of the format in
their order, each ended by a line feed: `[Interface]`, the private key, one
`Address` line per address, one `DNS` line per DNS entry, the MTU in decimal,
an empty line, and per peer `[Peer]`, its public key, its endpoint, one
`AllowedIPs` line per allowed IP and an empty line. That text is what it hands
to `os.WriteFile` for `/etc/wireguard/darp.conf` once the directory exists, and
the only thing it writes. The config of `GetWARPConfig` renders to one
`Address` line, two `DNS` lines, `MTU = 1280` and one peer with two
`AllowedIPs` lines. -/
theorem createWireGuardConfig_writes_lines (c : Config) (mkdirAll writeFile : Error)
    (bytes : List Nat) :
    wgConfig c = linesText (configLines c) ∧
    writtenData (createWireGuardConfig c mkdirAll writeFile).2 =
      (if mkdirAll = none then
        [("/etc/wireguard/darp.conf".toList, linesText (configLines c))]
      else []) ∧
    (GetWARPConfig (.ok bytes)).1.map wgConfig =
      some ("[Interface]\nPrivateKey = ".toList ++ base64.EncodeToString bytes ++
        ("\nAddress = 172.16.0.2/32\nDNS = 1.1.1.1\nDNS = 1.0.0.1\nMTU = 1280\n\n" ++
         "[Peer]\nPublicKey = bmXOC+F1FxEMF9dyiK2H5/1SUtzH0JuVo51h2wPfgyo=\n" ++
         "Endpoint = engage.cloudflareclient.com:2408\n" ++
         "AllowedIPs = 0.0.0.0/0\nAllowedIPs = ::/0\n\n").toList) := by
  refine ⟨wgConfig_eq_linesText c, ?_, ?_⟩
  · rw [← wgConfig_eq_linesText]
    cases mkdirAll with
    | some err => rfl
    | none => cases writeFile <;> rfl
  · simp only [GetWARPConfig, generatePrivateKey, Option.map_some', Option.some.injEq]
    simp only [wgConfig, List.foldl_cons, List.foldl_nil, List.nil_append, List.append_assoc]
    rfl

/-! ## The fixed description of `GetWARPConfig` -/

/-- C2: a successful `GetWARPConfig` returns MTU 1280, the address
`172.16.0.2/32`, the DNS servers `1.1.1.1` and `1.0.0.1`, and one peer with the
fixed public key, endpoint and allowed IPs; only the private key depends on
the random bytes, so two successful results agree on everything else. When key
generation fails the config is nil and the error is set. -/
theorem GetWARPConfig_fixed (bytes bytes2 : List Nat) (err : Str) :
    GetWARPConfig (.ok bytes) =
      (some {
        MTU := 1280
        Interface := {
          PrivateKey := (generatePrivateKey (.ok bytes)).1
          Addresses := ["172.16.0.2/32".toList]
          DNS := ["1.1.1.1".toList, "1.0.0.1".toList] }
        Peers := [{
          PublicKey := "bmXOC+F1FxEMF9dyiK2H5/1SUtzH0JuVo51h2wPfgyo=".toList
          Endpoint := "engage.cloudflareclient.com:2408".toList
          AllowedIPs := ["0.0.0.0/0".toList, "::/0".toList] }] }, none) ∧
    (GetWARPConfig (.ok bytes)).1.map
        (fun c => (c.MTU, c.Interface.Addresses, c.Interface.DNS, c.Peers)) =
      (GetWARPConfig (.ok bytes2)).1.map
        (fun c => (c.MTU, c.Interface.Addresses, c.Interface.DNS, c.Peers)) ∧
    GetWARPConfig (.error err) =
      (none, some ("failed to generate private key: ".toList ++ err)) :=
  ⟨rfl, rfl, rfl⟩

end warp

/-! ## The private key is padded base64 -/

namespace base64

theorem encodeChar_alphabet : ∀ i, i < 64 → isAlphabetChar (encodeChar i) = true := by
  decide

theorem decodeChar_encodeChar : ∀ i, i < 64 → decodeChar (encodeChar i) = some i := by
  decide

theorem encodeChar_ne_padding : ∀ i, i < 64 → encodeChar i ≠ StdPadding := by
  decide

theorem alphabet_ne_newline (c : Char) (h : isAlphabetChar c = true) : c ≠ '\n' := by
  intro hc; subst hc; revert h; decide

theorem mod64_lt (n : Nat) : n % 64 < 64 := Nat.mod_lt _ (by decide)

/-- Decoding undoes encoding, for every byte sequence. -/
theorem DecodeString_EncodeToString (bytes : List Nat) (hbyte : ∀ b ∈ bytes, b < 256) :
    DecodeString (EncodeToString bytes) = some bytes := by
  induction bytes using EncodeToString.induct with
  | case1 => rfl
  | case2 b0 =>
    have h0 : b0 < 256 := hbyte b0 (by simp)
    simp only [EncodeToString, DecodeString, and_self, if_true,
      decodeChar_encodeChar _ (mod64_lt _)]
    simp only [Option.some.injEq, List.cons.injEq, and_true]
    omega
  | case3 b0 b1 =>
    have h0 : b0 < 256 := hbyte b0 (by simp)
    have h1 : b1 < 256 := hbyte b1 (by simp)
    have hne := encodeChar_ne_padding _ (mod64_lt ((b0 * 65536 + b1 * 256) / 64))
    simp only [EncodeToString, DecodeString, and_self, if_true, if_neg hne,
      decodeChar_encodeChar _ (mod64_lt _)]
    simp only [Option.some.injEq, List.cons.injEq, and_true]
    omega
  | case4 b0 b1 b2 rest ih =>
    have h0 : b0 < 256 := hbyte b0 (by simp)
    have h1 : b1 < 256 := hbyte b1 (by simp)
    have h2 : b2 < 256 := hbyte b2 (by simp)
    have hrest : ∀ b ∈ rest, b < 256 := fun b hb => hbyte b (by simp [hb])
    have hne := encodeChar_ne_padding _ (mod64_lt (b0 * 65536 + b1 * 256 + b2))
    simp only [EncodeToString, DecodeString, hne, and_false, if_false,
      decodeChar_encodeChar _ (mod64_lt _), ih hrest]
    simp only [Option.some.injEq, List.cons.injEq, and_true]
    omega

/-- A byte sequence of length `3k + 2` encodes to `4k + 3` alphabet characters
followed by one padding character. -/
theorem EncodeToString_two_left (k : Nat) : ∀ bytes : List Nat, bytes.length = 3 * k + 2 →
    ∃ body, EncodeToString bytes = body ++ [StdPadding] ∧ body.length = 4 * k + 3 ∧
      ∀ c ∈ body, isAlphabetChar c = true := by
  induction k with
  | zero =>
    intro bytes h
    match bytes, h with
    | [b0, b1], _ =>
      refine ⟨[encodeChar ((b0 * 65536 + b1 * 256) / 262144 % 64),
        encodeChar ((b0 * 65536 + b1 * 256) / 4096 % 64),
        encodeChar ((b0 * 65536 + b1 * 256) / 64 % 64)], rfl, rfl, ?_⟩
      intro c hc
      simp only [List.mem_cons, List.mem_singleton, List.not_mem_nil, or_false] at hc
      rcases hc with h | h | h <;> subst h <;> exact encodeChar_alphabet _ (mod64_lt _)
  | succ k ih =>
    intro bytes h
    match bytes, h with
    | b0 :: b1 :: b2 :: rest, h =>
      have hr : rest.length = 3 * k + 2 := by simp only [List.length_cons] at h; omega
      obtain ⟨body, hb, hl, ha⟩ := ih rest hr
      refine ⟨encodeChar ((b0 * 65536 + b1 * 256 + b2) / 262144 % 64) ::
        encodeChar ((b0 * 65536 + b1 * 256 + b2) / 4096 % 64) ::
        encodeChar ((b0 * 65536 + b1 * 256 + b2) / 64 % 64) ::
        encodeChar ((b0 * 65536 + b1 * 256 + b2) % 64) :: body, ?_, ?_, ?_⟩
      · simp only [EncodeToString, hb, List.cons_append]
      · simp only [List.length_cons, hl]; omega
      · intro c hc
        simp only [List.mem_cons] at hc
        rcases hc with h | h | h | h | h
        · subst h; exact encodeChar_alphabet _ (mod64_lt _)
        · subst h; exact encodeChar_alphabet _ (mod64_lt _)
        · subst h; exact encodeChar_alphabet _ (mod64_lt _)
        · subst h; exact encodeChar_alphabet _ (mod64_lt _)
        · exact ha c h

end base64

namespace warp

/-- C3: for 32 bytes from the random source, `generatePrivateKey` returns
their padded base64 encoding with a nil error: 44 characters, the first 43
from the base64 alphabet, the last one the padding `=`, no line feed, and
decoding it gives the 32 bytes back. -/
theorem generatePrivateKey_is_base64 (bytes : List Nat) (hlen : bytes.length = 32)
    (hbyte : ∀ b ∈ bytes, b < 256) :
    generatePrivateKey (.ok bytes) = (base64.EncodeToString bytes, none) ∧
    (generatePrivateKey (.ok bytes)).1.length = 44 ∧
    (∀ c ∈ (generatePrivateKey (.ok bytes)).1.take 43, base64.isAlphabetChar c = true) ∧
    (generatePrivateKey (.ok bytes)).1.drop 43 = ['='] ∧
    '\n' ∉ (generatePrivateKey (.ok bytes)).1 ∧
    base64.DecodeString (generatePrivateKey (.ok bytes)).1 = some bytes := by
  obtain ⟨body, hb, hl, ha⟩ := base64.EncodeToString_two_left 10 bytes (by omega)
  have hl43 : body.length = 43 := by omega
  have hkey : (generatePrivateKey (.ok bytes)).1 = base64.EncodeToString bytes := rfl
  rw [hkey]
  refine ⟨rfl, ?_, ?_, ?_, ?_, base64.DecodeString_EncodeToString bytes hbyte⟩
  · rw [hb, List.length_append, hl43]; rfl
  · rw [hb, List.take_left' hl43]; exact ha
  · rw [hb, List.drop_left' hl43]; rfl
  · rw [hb]
    intro hmem
    rcases List.mem_append.mp hmem with h | h
    · exact base64.alphabet_ne_newline _ (ha _ h) rfl
    · simp [base64.StdPadding] at h

/-- The statement of C3 at thirty-two bytes `255`. -/
theorem generatePrivateKey_is_base64_witness :
    (List.replicate 32 255).length = 32 ∧ (∀ b ∈ List.replicate 32 255, b < 256) ∧
    (generatePrivateKey (.ok (List.replicate 32 255))).1.length = 44 ∧
    base64.DecodeString (generatePrivateKey (.ok (List.replicate 32 255))).1 =
      some (List.replicate 32 255) :=
  ⟨by decide, by decide,
    (generatePrivateKey_is_base64 (List.replicate 32 255) (by decide) (by decide)).2.1,
    (generatePrivateKey_is_base64 (List.replicate 32 255) (by decide) (by decide)).2.2.2.2.2⟩

end warp

/-! ## Validation of the settings -/

namespace config

/-- C4: `Validate` reports an error exactly when the DNS list is empty or the
WARP endpoint is empty: the DNS message when the DNS list is empty, whatever
the endpoint; the endpoint message when only the endpoint is empty; nil
otherwise. The config is the same afterwards. -/
theorem Validate_error_iff (c : Config) :
    ((Validate c).2 ≠ none ↔ (c.Network.DNS = [] ∨ c.Cloudflare.WarpEndpoint = [])) ∧
    (Validate c).2 =
      (if c.Network.DNS = [] then some "at least one DNS server must be configured".toList
       else if c.Cloudflare.WarpEndpoint = [] then some "WARP endpoint must be configured".toList
       else none) ∧
    (Validate c).1 = c := by
  unfold Validate
  by_cases hdns : c.Network.DNS = []
  · simp [hdns]
  · have hlen : ¬ c.Network.DNS.length = 0 := by
      intro h; exact hdns (List.length_eq_zero.mp h)
    by_cases hep : c.Cloudflare.WarpEndpoint = []
    · simp [hdns, hlen, hep]
    · simp [hdns, hlen, hep]

end config

/-! ## The connection state of the WARP manager -/

namespace warp

theorem GetWARPConfig_cases (rand : RandOutcome) :
    (∃ c, GetWARPConfig rand = (some c, none)) ∨
      (∃ err, GetWARPConfig rand = (none, some err)) := by
  cases rand with
  | error err => exact Or.inr ⟨_, rfl⟩
  | ok bytes => exact Or.inl ⟨_, rfl⟩

/-- A `Connect` either returns nil and leaves the manager connected, or
returns an error and leaves the connection flag as it was. -/
theorem Connect_isConnected (m : Manager) (env : ConnectEnv) :
    ((Connect m env).2.1 = none ∧ (Connect m env).1.isConnected = true) ∨
    ((Connect m env).2.1 ≠ none ∧ (Connect m env).1.isConnected = m.isConnected) := by
  unfold Connect
  rcases GetWARPConfig_cases env.rand with ⟨c, hc⟩ | ⟨err, hc⟩
  · rw [hc]
    simp only
    cases h1 : createWireGuardConfig c env.mkdirAll env.writeFile with
    | mk e1 eff1 =>
      cases e1 with
      | some err => simp
      | none =>
        simp only
        cases h2 : startWireGuardInterface env.lookPath env.wgQuickUp with
        | mk e2 eff2 =>
          cases e2 with
          | some err => simp
          | none => simp
  · rw [hc]; simp

theorem Disconnect_result (m : Manager) (env : DisconnectEnv) :
    (Disconnect m env).2.1 = none ∧ (Disconnect m env).1.isConnected = false := by
  unfold Disconnect
  cases h : m.isConnected <;> simp [h]

theorem run_append (m : Manager) (calls : List Call) (call : Call) :
    run m (calls ++ [call]) = (step (run m calls) call).1 := by
  simp [run, List.foldl_append]

/-- From a disconnected manager, the flag is set exactly when the calls
contain a `Connect` that returned nil with no `Disconnect` after it. -/
theorem IsConnected_run_iff (m₀ : Manager) (h₀ : m₀.isConnected = false) (calls : List Call) :
    IsConnected (run m₀ calls) = true ↔
      ∃ before env after, calls = before ++ Call.connect env :: after ∧
        (Connect (run m₀ before) env).2.1 = none ∧
        ∀ call ∈ after, ∀ denv, call ≠ Call.disconnect denv := by
  induction calls using List.reverseRecOn with
  | nil =>
    simp [run, IsConnected, h₀]
  | append_singleton calls call ih =>
    rw [run_append]
    cases call with
    | connect env =>
      simp only [step, IsConnected] at ih ⊢
      constructor
      · intro h
        rcases Connect_isConnected (run m₀ calls) env with ⟨herr, _⟩ | ⟨_, hsame⟩
        · exact ⟨calls, env, [], rfl, herr, by simp⟩
        · rw [hsame] at h
          obtain ⟨before, env2, after, hcalls, herr, hno⟩ := ih.mp h
          refine ⟨before, env2, after ++ [Call.connect env], by simp [hcalls], herr, ?_⟩
          intro call hcall denv
          rcases List.mem_append.mp hcall with hc | hc
          · exact hno call hc denv
          · simp only [List.mem_singleton] at hc; subst hc; simp
      · rintro ⟨before, env2, after, hcalls, herr, hno⟩
        rcases List.eq_nil_or_concat after with hnil | ⟨after2, last, hlast⟩
        · subst hnil
          have hsplit : calls ++ [Call.connect env] = before ++ [Call.connect env2] := hcalls
          obtain ⟨hb, he⟩ := List.append_inj' hsplit rfl
          simp only [List.cons.injEq, Call.connect.injEq, and_true] at he
          subst hb; subst he
          rcases Connect_isConnected (run m₀ calls) env with ⟨_, hconn⟩ | ⟨hne, _⟩
          · exact hconn
          · exact absurd herr hne
        · subst hlast
          have hsplit : calls ++ [Call.connect env] =
              (before ++ Call.connect env2 :: after2) ++ [last] := by
            simp [hcalls]
          obtain ⟨hb, _⟩ := List.append_inj' hsplit rfl
          have hold : (run m₀ calls).isConnected = true :=
            ih.mpr ⟨before, env2, after2, hb, herr,
              fun call hc denv => hno call (by simp [hc]) denv⟩
          rcases Connect_isConnected (run m₀ calls) env with ⟨_, hconn⟩ | ⟨_, hsame⟩
          · exact hconn
          · rw [hsame]; exact hold
    | disconnect env =>
      simp only [step, IsConnected]
      rw [(Disconnect_result (run m₀ calls) env).2]
      simp only [Bool.false_eq_true, false_iff, not_exists, not_and]
      intro before env2 after hcalls _ hno
      rcases List.eq_nil_or_concat after with hnil | ⟨after2, last, hlast⟩
      · subst hnil
        have hsplit : calls ++ [Call.disconnect env] = before ++ [Call.connect env2] := hcalls
        obtain ⟨_, he⟩ := List.append_inj' hsplit rfl
        simp at he
      · subst hlast
        have hsplit : calls ++ [Call.disconnect env] =
            (before ++ Call.connect env2 :: after2) ++ [last] := by
          simp [hcalls]
        obtain ⟨_, he⟩ := List.append_inj' hsplit rfl
        simp only [List.cons.injEq, and_true] at he
        exact hno last (by simp) env he.symm

/-- C5: for a manager from `NewManager` and any sequence of `Connect` and
`Disconnect` calls with any outcomes of their external steps, `IsConnected` is
true exactly when an earlier `Connect` returned nil and no `Disconnect` came
after it. The manager starts disconnected; a `Connect` returns nil or leaves
`IsConnected` as it was; `Disconnect` returns nil and leaves the manager
disconnected, whatever stopping the interface and removing the file did. -/
theorem IsConnected_iff_connected_since (config : Option Config) (calls : List Call)
    (m : Manager) (cenv : ConnectEnv) (denv : DisconnectEnv) :
    (IsConnected (run (NewManager config) calls) = true ↔
      ∃ before env after, calls = before ++ Call.connect env :: after ∧
        (Connect (run (NewManager config) before) env).2.1 = none ∧
        ∀ call ∈ after, ∀ env2, call ≠ Call.disconnect env2) ∧
    IsConnected (NewManager config) = false ∧
    ((Connect m cenv).2.1 = none ∨ IsConnected (Connect m cenv).1 = IsConnected m) ∧
    (Disconnect m denv).2.1 = none ∧
    IsConnected (Disconnect m denv).1 = false := by
  refine ⟨IsConnected_run_iff (NewManager config) rfl calls, rfl, ?_,
    (Disconnect_result m denv).1, (Disconnect_result m denv).2⟩
  rcases Connect_isConnected m cenv with ⟨h, _⟩ | ⟨_, h⟩
  · exact Or.inl h
  · exact Or.inr h

end warp

/-! ## The first error of `GetNetworkInfo` -/

namespace network

/-- C6: `GetNetworkInfo` runs the interface query, the routing query and the
DNS query in that order and stops at the first that fails: it then returns a
nil map and that step's error behind the step's message, and the later
commands are not run. The error is nil exactly when all three commands
succeed, which is exactly when the map is not nil, and the map then has the
keys `interface`, `routes` and `dns` and no other. -/
theorem GetNetworkInfo_first_error (m : Manager) (env : InfoEnv) (a r d e : Str)
    (route dns : CmdOutcome) :
    ((GetNetworkInfo m env).2.1 = none ↔
      ∃ a r d, env.ipAddrShow = .ok a ∧ env.ipRouteShow = .ok r ∧ env.catResolvConf = .ok d) ∧
    ((GetNetworkInfo m env).2.1 = none ↔ (GetNetworkInfo m env).1 ≠ none) ∧
    GetNetworkInfo m
        { ipAddrShow := .error e, ipRouteShow := route, catResolvConf := dns } =
      (none,
        (getInterfaceInfo m (.error e)).2.1.map
          (fun err => "failed to get interface info: ".toList ++ err),
        [Effect.command ["ip".toList, "addr".toList, "show".toList, m.interfaceName]]) ∧
    (getInterfaceInfo m (.error e)).2.1 = some ("failed to get interface info: ".toList ++ e) ∧
    GetNetworkInfo m
        { ipAddrShow := .ok a, ipRouteShow := .error e, catResolvConf := dns } =
      (none,
        (getRoutingInfo m (.error e)).2.1.map
          (fun err => "failed to get routing info: ".toList ++ err),
        [Effect.command ["ip".toList, "addr".toList, "show".toList, m.interfaceName],
         Effect.command ["ip".toList, "route".toList, "show".toList]]) ∧
    (getRoutingInfo m (.error e)).2.1 = some ("failed to get routing info: ".toList ++ e) ∧
    GetNetworkInfo m
        { ipAddrShow := .ok a, ipRouteShow := .ok r, catResolvConf := .error e } =
      (none,
        (getDNSInfo m (.error e)).2.1.map
          (fun err => "failed to get DNS info: ".toList ++ err),
        [Effect.command ["ip".toList, "addr".toList, "show".toList, m.interfaceName],
         Effect.command ["ip".toList, "route".toList, "show".toList],
         Effect.command ["cat".toList, "/etc/resolv.conf".toList]]) ∧
    (getDNSInfo m (.error e)).2.1 = some ("failed to read resolv.conf: ".toList ++ e) ∧
    (GetNetworkInfo m
        { ipAddrShow := .ok a, ipRouteShow := .ok r, catResolvConf := .ok d }).2.1 = none ∧
    (GetNetworkInfo m
        { ipAddrShow := .ok a, ipRouteShow := .ok r, catResolvConf := .ok d }).1.map StrMap.keys =
      some ["interface".toList, "routes".toList, "dns".toList] := by
  refine ⟨?_, ?_, rfl, rfl, rfl, rfl, rfl, rfl, rfl, ?_⟩
  · obtain ⟨ra, rr, rd⟩ := env
    cases ra with
    | error e1 => simp [GetNetworkInfo, getInterfaceInfo]
    | ok a1 =>
      cases rr with
      | error e2 => simp [GetNetworkInfo, getInterfaceInfo, getRoutingInfo]
      | ok r1 =>
        cases rd with
        | error e3 => simp [GetNetworkInfo, getInterfaceInfo, getRoutingInfo, getDNSInfo]
        | ok d1 => simp [GetNetworkInfo, getInterfaceInfo, getRoutingInfo, getDNSInfo]
  · obtain ⟨ra, rr, rd⟩ := env
    cases ra with
    | error e1 => simp [GetNetworkInfo, getInterfaceInfo]
    | ok a1 =>
      cases rr with
      | error e2 => simp [GetNetworkInfo, getInterfaceInfo, getRoutingInfo]
      | ok r1 =>
        cases rd with
        | error e3 => simp [GetNetworkInfo, getInterfaceInfo, getRoutingInfo, getDNSInfo]
        | ok d1 => simp [GetNetworkInfo, getInterfaceInfo, getRoutingInfo, getDNSInfo]
  · rfl

end network

/-! ## Loading the settings file -/

theorem foldl_preserves {α β γ : Type} (f : α → β → α) (proj : α → γ) (touches : β → Bool)
    (h : ∀ a b, touches b = false → proj (f a b) = proj a) :
    ∀ (l : List β) (a : α), l.any touches = false → proj (l.foldl f a) = proj a := by
  intro l
  induction l with
  | nil => intro a _; rfl
  | cons b bs ih =>
    intro a hl
    simp only [List.any_cons, Bool.or_eq_false_iff] at hl
    rw [List.foldl_cons, ih (f a b) hl.2, h a b hl.1]

namespace config
open json

theorem decodeStruct_preserves {α γ : Type} (member : Decoded α → Str × Value → Decoded α)
    (proj : α → γ) (name goType : Str)
    (h : ∀ d kv, keyMatches kv.1 name = false → proj (member d kv).val = proj d.val)
    (v : Value) (d : Decoded α) (hv : hasMember v name = false) :
    proj (decodeStruct member goType v d).val = proj d.val := by
  cases v with
  | object members =>
    exact foldl_preserves member (fun d => proj d.val) (fun kv => keyMatches kv.1 name) h
      members d hv
  | _ => rfl

theorem decodeCloudflareMember_WarpEndpoint (d : Decoded CloudflareConfig) (kv : Str × Value)
    (h : keyMatches kv.1 "warp_endpoint".toList = false) :
    (decodeCloudflareMember d kv).val.WarpEndpoint = d.val.WarpEndpoint := by
  unfold decodeCloudflareMember
  split_ifs <;> first | rfl | simp_all

theorem decodeNetworkMember_Interface (d : Decoded NetworkConfig) (kv : Str × Value)
    (h : keyMatches kv.1 "interface".toList = false) :
    (decodeNetworkMember d kv).val.Interface = d.val.Interface := by
  unfold decodeNetworkMember
  split_ifs <;> first | rfl | simp_all

theorem decodeNetworkMember_DNS (d : Decoded NetworkConfig) (kv : Str × Value)
    (h : keyMatches kv.1 "dns".toList = false) :
    (decodeNetworkMember d kv).val.DNS = d.val.DNS := by
  unfold decodeNetworkMember
  split_ifs <;> first | rfl | simp_all

theorem decodeNetworkMember_MTU (d : Decoded NetworkConfig) (kv : Str × Value)
    (h : keyMatches kv.1 "mtu".toList = false) :
    (decodeNetworkMember d kv).val.MTU = d.val.MTU := by
  unfold decodeNetworkMember
  split_ifs <;> first | rfl | simp_all

theorem decodeNetworkMember_Timeout (d : Decoded NetworkConfig) (kv : Str × Value)
    (h : keyMatches kv.1 "timeout".toList = false) :
    (decodeNetworkMember d kv).val.Timeout = d.val.Timeout := by
  unfold decodeNetworkMember
  split_ifs <;> first | rfl | simp_all

theorem decodeLoggingMember_Level (d : Decoded LoggingConfig) (kv : Str × Value)
    (h : keyMatches kv.1 "level".toList = false) :
    (decodeLoggingMember d kv).val.Level = d.val.Level := by
  unfold decodeLoggingMember
  split_ifs <;> first | rfl | simp_all

theorem decodeLoggingMember_Format (d : Decoded LoggingConfig) (kv : Str × Value)
    (h : keyMatches kv.1 "format".toList = false) :
    (decodeLoggingMember d kv).val.Format = d.val.Format := by
  unfold decodeLoggingMember
  split_ifs <;> first | rfl | simp_all

theorem decodeLoggingMember_Output (d : Decoded LoggingConfig) (kv : Str × Value)
    (h : keyMatches kv.1 "output".toList = false) :
    (decodeLoggingMember d kv).val.Output = d.val.Output := by
  unfold decodeLoggingMember
  split_ifs <;> first | rfl | simp_all

/-- A field of the section `Cloudflare` keeps its value through a top-level
member that does not give it. -/
theorem decodeConfigMember_Cloudflare {γ : Type} (proj : CloudflareConfig → γ) (inner : Str)
    (h : ∀ d kv, keyMatches kv.1 inner = false →
      proj (decodeCloudflareMember d kv).val = proj d.val)
    (d : Decoded Config) (kv : Str × Value)
    (hkv : (keyMatches kv.1 "cloudflare".toList && hasMember kv.2 inner) = false) :
    proj (decodeConfigMember d kv).val.Cloudflare = proj d.val.Cloudflare := by
  unfold decodeConfigMember
  by_cases h1 : keyMatches kv.1 "cloudflare".toList = true
  · rw [h1, Bool.true_and] at hkv
    rw [if_pos h1]
    exact decodeStruct_preserves decodeCloudflareMember proj inner _ h kv.2 _ hkv
  · rw [if_neg h1]
    split_ifs <;> rfl

theorem decodeConfigMember_Network {γ : Type} (proj : NetworkConfig → γ) (inner : Str)
    (h : ∀ d kv, keyMatches kv.1 inner = false →
      proj (decodeNetworkMember d kv).val = proj d.val)
    (d : Decoded Config) (kv : Str × Value)
    (hkv : (keyMatches kv.1 "network".toList && hasMember kv.2 inner) = false) :
    proj (decodeConfigMember d kv).val.Network = proj d.val.Network := by
  unfold decodeConfigMember
  by_cases h0 : keyMatches kv.1 "cloudflare".toList = true
  · rw [if_pos h0]
  · rw [if_neg h0]
    by_cases h1 : keyMatches kv.1 "network".toList = true
    · rw [h1, Bool.true_and] at hkv
      rw [if_pos h1]
      exact decodeStruct_preserves decodeNetworkMember proj inner _ h kv.2 _ hkv
    · rw [if_neg h1]
      split_ifs <;> rfl

theorem decodeConfigMember_Logging {γ : Type} (proj : LoggingConfig → γ) (inner : Str)
    (h : ∀ d kv, keyMatches kv.1 inner = false →
      proj (decodeLoggingMember d kv).val = proj d.val)
    (d : Decoded Config) (kv : Str × Value)
    (hkv : (keyMatches kv.1 "logging".toList && hasMember kv.2 inner) = false) :
    proj (decodeConfigMember d kv).val.Logging = proj d.val.Logging := by
  unfold decodeConfigMember
  by_cases h0 : keyMatches kv.1 "cloudflare".toList = true
  · rw [if_pos h0]
  · rw [if_neg h0]
    by_cases h1 : keyMatches kv.1 "network".toList = true
    · rw [if_pos h1]
    · rw [if_neg h1]
      by_cases h2 : keyMatches kv.1 "logging".toList = true
      · rw [h2, Bool.true_and] at hkv
        rw [if_pos h2]
        exact decodeStruct_preserves decodeLoggingMember proj inner _ h kv.2 _ hkv
      · rw [if_neg h2]

/-- A field that the JSON text omits keeps the value it had before `Unmarshal`. -/
theorem Unmarshal_omitted {γ : Type} (proj : Config → γ) (outer inner : Str)
    (h : ∀ d kv, (keyMatches kv.1 outer && hasMember kv.2 inner) = false →
      proj (decodeConfigMember d kv).val = proj d.val)
    (v : Value) (config : Config) (hv : givesField v outer inner = false) :
    proj (Unmarshal (some v) config).1 = proj config := by
  unfold Unmarshal
  cases v with
  | object members =>
    exact foldl_preserves decodeConfigMember (fun d => proj d.val)
      (fun kv => keyMatches kv.1 outer && hasMember kv.2 inner) h members _ hv
  | _ => rfl

/-- A file that is read and decoded without error is decoded into the zero
config. -/
theorem LoadConfig_of_file (configPath : Str) (env : LoadEnv) (v : Value) (c : Config)
    (hpath : pathKnown configPath env = true) (hexists : env.statNotExist = false)
    (hread : env.readFile = .ok (some v)) (hload : LoadConfig configPath env = (some c, none)) :
    c = (Unmarshal (some v) zeroConfig).1 := by
  have hfrom : loadFrom env = (some c, none) := by
    unfold LoadConfig at hload
    by_cases hp : configPath = []
    · simp only [hp, if_true] at hload
      cases hh : env.userHomeDir with
      | error e => simp [pathKnown, hp, hh, Except.toBool] at hpath
      | ok home => rw [hh] at hload; exact hload
    · simp only [hp, if_false] at hload; exact hload
  unfold loadFrom at hfrom
  simp only [hexists, hread, Bool.false_eq_true, if_false] at hfrom
  cases hu : Unmarshal (some v) zeroConfig with
  | mk c2 e2 =>
    rw [hu] at hfrom
    cases e2 with
    | some err => simp at hfrom
    | none =>
      simp only [Prod.mk.injEq, Option.some.injEq, and_true] at hfrom
      exact hfrom.symm

/-- C7, as the code has it: when the settings file exists, holds JSON and is
loaded without error, every field the file omits has the zero value of its
type in the config `LoadConfig` returns: the empty string, the nil list, 0. -/
theorem LoadConfig_omitted_fields_zero (configPath : Str) (env : LoadEnv) (v : Value)
    (c : Config) (hpath : pathKnown configPath env = true) (hexists : env.statNotExist = false)
    (hread : env.readFile = .ok (some v)) (hload : LoadConfig configPath env = (some c, none)) :
    (givesField v "cloudflare".toList "warp_endpoint".toList = false →
      c.Cloudflare.WarpEndpoint = []) ∧
    (givesField v "network".toList "interface".toList = false → c.Network.Interface = []) ∧
    (givesField v "network".toList "dns".toList = false → c.Network.DNS = []) ∧
    (givesField v "network".toList "mtu".toList = false → c.Network.MTU = 0) ∧
    (givesField v "network".toList "timeout".toList = false → c.Network.Timeout = 0) ∧
    (givesField v "logging".toList "level".toList = false → c.Logging.Level = []) ∧
    (givesField v "logging".toList "format".toList = false → c.Logging.Format = []) ∧
    (givesField v "logging".toList "output".toList = false → c.Logging.Output = []) := by
  have hc := LoadConfig_of_file configPath env v c hpath hexists hread hload
  subst hc
  refine ⟨?_, ?_, ?_, ?_, ?_, ?_, ?_, ?_⟩
  · exact Unmarshal_omitted (fun c => c.Cloudflare.WarpEndpoint) _ _
      (decodeConfigMember_Cloudflare (fun s => s.WarpEndpoint) _
        decodeCloudflareMember_WarpEndpoint) v zeroConfig
  · exact Unmarshal_omitted (fun c => c.Network.Interface) _ _
      (decodeConfigMember_Network (fun s => s.Interface) _
        decodeNetworkMember_Interface) v zeroConfig
  · exact Unmarshal_omitted (fun c => c.Network.DNS) _ _
      (decodeConfigMember_Network (fun s => s.DNS) _
        decodeNetworkMember_DNS) v zeroConfig
  · exact Unmarshal_omitted (fun c => c.Network.MTU) _ _
      (decodeConfigMember_Network (fun s => s.MTU) _
        decodeNetworkMember_MTU) v zeroConfig
  · exact Unmarshal_omitted (fun c => c.Network.Timeout) _ _
      (decodeConfigMember_Network (fun s => s.Timeout) _
        decodeNetworkMember_Timeout) v zeroConfig
  · exact Unmarshal_omitted (fun c => c.Logging.Level) _ _
      (decodeConfigMember_Logging (fun s => s.Level) _
        decodeLoggingMember_Level) v zeroConfig
  · exact Unmarshal_omitted (fun c => c.Logging.Format) _ _
      (decodeConfigMember_Logging (fun s => s.Format) _
        decodeLoggingMember_Format) v zeroConfig
  · exact Unmarshal_omitted (fun c => c.Logging.Output) _ _
      (decodeConfigMember_Logging (fun s => s.Output) _
        decodeLoggingMember_Output) v zeroConfig

end config

namespace config

/-- The statement of C7 as amended, at a file that gives only the MTU. -/
theorem LoadConfig_omitted_fields_zero_witness :
    LoadConfig "/etc/darp/config.json".toList
        { userHomeDir := .ok "/root".toList, statNotExist := false, mkdirAll := none,
          writeFile := none,
          readFile := .ok (some (json.Value.object [("network".toList,
            json.Value.object [("mtu".toList, json.Value.number "1400".toList)])])) } =
      (some { zeroConfig with Network := { zeroConfig.Network with MTU := 1400 } }, none) ∧
    (givesField (json.Value.object [("network".toList,
        json.Value.object [("mtu".toList, json.Value.number "1400".toList)])])
        "network".toList "dns".toList = false →
      ({ zeroConfig with Network := { zeroConfig.Network with MTU := 1400 } } : Config).Network.DNS
        = []) :=
  ⟨by decide,
    (LoadConfig_omitted_fields_zero "/etc/darp/config.json".toList
      { userHomeDir := .ok "/root".toList, statNotExist := false, mkdirAll := none,
        writeFile := none,
        readFile := .ok (some (json.Value.object [("network".toList,
          json.Value.object [("mtu".toList, json.Value.number "1400".toList)])])) }
      (json.Value.object [("network".toList,
        json.Value.object [("mtu".toList, json.Value.number "1400".toList)])])
      { zeroConfig with Network := { zeroConfig.Network with MTU := 1400 } }
      (by decide) rfl rfl (by decide)).2.2.1⟩

/-- C7, as stated, fails: a settings file that holds only the empty JSON
object is loaded without error as the zero config, which is not
`DefaultConfig`: its interface name, DNS list, MTU, timeout and endpoint are
empty or 0, and `Validate` rejects it. -/
theorem LoadConfig_empty_object_not_default :
    LoadConfig "/etc/darp/config.json".toList
        { userHomeDir := .ok "/root".toList, statNotExist := false, mkdirAll := none,
          writeFile := none, readFile := .ok (some (json.Value.object [])) } =
      (some zeroConfig, none) ∧
    zeroConfig ≠ DefaultConfig ∧
    zeroConfig.Network.Interface ≠ DefaultConfig.Network.Interface ∧
    zeroConfig.Network.DNS ≠ DefaultConfig.Network.DNS ∧
    zeroConfig.Network.MTU ≠ DefaultConfig.Network.MTU ∧
    zeroConfig.Network.Timeout ≠ DefaultConfig.Network.Timeout ∧
    zeroConfig.Cloudflare.WarpEndpoint ≠ DefaultConfig.Cloudflare.WarpEndpoint ∧
    (Validate zeroConfig).2 = some "at least one DNS server must be configured".toList := by
  decide

end config

namespace config

/-- C8: `LoadConfig` never returns a nil config; whenever its error is not nil
the config is `DefaultConfig`; with an empty path and no home directory it
returns `DefaultConfig` and a nil error. Its error is not nil exactly when the
file is looked for and the directory cannot be created, the default file
cannot be written, the file cannot be read, or its content does not decode. -/
theorem LoadConfig_never_nil (configPath : Str) (env : LoadEnv) (e : Str) :
    (LoadConfig configPath env).1 ≠ none ∧
    ((LoadConfig configPath env).2 = none ∨ (LoadConfig configPath env).1 = some DefaultConfig) ∧
    LoadConfig [] { env with userHomeDir := .error e } = (some DefaultConfig, none) ∧
    ((LoadConfig configPath env).2 ≠ none ↔
      pathKnown configPath env = true ∧
      ((env.statNotExist = true ∧ (env.mkdirAll ≠ none ∨ env.writeFile ≠ none)) ∨
       (env.statNotExist = false ∧
         ((∃ err, env.readFile = .error err) ∨
          (∃ data, env.readFile = .ok data ∧ (Unmarshal data zeroConfig).2 ≠ none))))) := by
  have hfrom : (loadFrom env).1 ≠ none ∧
      ((loadFrom env).2 = none ∨ (loadFrom env).1 = some DefaultConfig) ∧
      ((loadFrom env).2 ≠ none ↔
        ((env.statNotExist = true ∧ (env.mkdirAll ≠ none ∨ env.writeFile ≠ none)) ∨
         (env.statNotExist = false ∧
           ((∃ err, env.readFile = .error err) ∨
            (∃ data, env.readFile = .ok data ∧ (Unmarshal data zeroConfig).2 ≠ none))))) := by
    unfold loadFrom
    cases hs : env.statNotExist with
    | true =>
      cases hm : env.mkdirAll with
      | some err => simp
      | none =>
        cases hw : env.writeFile with
        | some err => simp [Save]
        | none => simp [Save]
    | false =>
      cases hr : env.readFile with
      | error err => simp
      | ok data =>
        cases hu : Unmarshal data zeroConfig with
        | mk c2 e2 =>
          cases e2 with
          | some err => simp [hu]
          | none => simp [hu]
  refine ⟨?_, ?_, rfl, ?_⟩
  · unfold LoadConfig
    split_ifs
    · cases env.userHomeDir with
      | error _ => simp
      | ok _ => exact hfrom.1
    · exact hfrom.1
  · unfold LoadConfig
    split_ifs
    · cases env.userHomeDir with
      | error _ => simp
      | ok _ => exact hfrom.2.1
    · exact hfrom.2.1
  · unfold LoadConfig pathKnown
    by_cases hp : configPath = []
    · rw [if_pos hp]
      cases hh : env.userHomeDir with
      | error _ => simp [hp, Except.toBool]
      | ok _ => simpa [hp, Except.toBool] using hfrom.2.2
    · rw [if_neg hp]
      simpa [hp] using hfrom.2.2

end config

/-! ## Parsing of the routing table -/

namespace network

/-- The routing loop adds one entry per line that is not blank. -/
theorem foldl_routeLine_length (lines : List Str) (acc : List (StrMap Str)) :
    (lines.foldl routeLine acc).length =
      acc.length + (lines.filter (fun line => strings.TrimSpace line != [])).length := by
  induction lines generalizing acc with
  | nil => simp
  | cons line lines ih =>
    rw [List.foldl_cons, ih, List.filter_cons]
    unfold routeLine
    by_cases h : strings.TrimSpace line = []
    · simp [h]
    · simp [h]; omega

/-- On every line of the form `D via G dev I ...` the entry stores `dev` as
the interface. -/
theorem routeLine_via_dev (routes : List (StrMap Str)) (line D G I : Str) (rest : List Str)
    (hline : strings.TrimSpace line ≠ [])
    (hfields : strings.Fields (strings.TrimSpace line) =
      D :: "via".toList :: G :: "dev".toList :: I :: rest) :
    routeLine routes line = routes ++ [[("destination".toList, D), ("gateway".toList, G),
      ("interface".toList, "dev".toList)]] := by
  unfold routeLine
  simp only [hline, if_false, hfields]
  rfl

/-- C9, what the code does at the line of the claim: for the output
`default via 192.168.1.1 dev eth0` the one entry has destination `default` and
gateway `192.168.1.1`, and its interface is the word `dev`, the fourth field,
not `eth0`, the fifth. -/
theorem getRoutingInfo_interface_is_dev :
    getRoutingInfo (NewManager "warp0".toList [])
        (.ok "default via 192.168.1.1 dev eth0\n".toList) =
      (some [[("destination".toList, "default".toList),
          ("gateway".toList, "192.168.1.1".toList),
          ("interface".toList, "dev".toList)]], none,
        [Effect.command ["ip".toList, "route".toList, "show".toList]]) ∧
    strings.Fields (strings.TrimSpace "default via 192.168.1.1 dev eth0".toList) =
      ["default".toList, "via".toList, "192.168.1.1".toList, "dev".toList, "eth0".toList] := by
  decide

end network

/-! ## Parsing of resolv.conf -/

namespace strings

/-- A trimmed string does not end in white space. -/
theorem TrimSpace_getLast (s : Str) (last : Char) (h : (TrimSpace s).getLast? = some last) :
    unicode.IsSpace last = false := by
  unfold TrimSpace at h
  rw [List.getLast?_reverse] at h
  have hd := List.head?_dropWhile_not unicode.IsSpace (s.dropWhile unicode.IsSpace).reverse
  rw [h] at hd
  exact hd

theorem TrimPrefix_of_HasPrefix (s pre : Str) (h : HasPrefix s pre = true) :
    TrimPrefix s pre = s.drop pre.length ∧ s = pre ++ s.drop pre.length := by
  constructor
  · simp [TrimPrefix, h]
  · unfold HasPrefix at h
    rw [List.isPrefixOf_iff_prefix] at h
    exact (List.prefix_iff_eq_append.mp h).symm

end strings

namespace network

theorem foldl_nameserverLine (lines : List Str) (acc : List Str) :
    lines.foldl nameserverLine acc =
      acc ++ ((lines.map strings.TrimSpace).filter
        (fun line => strings.HasPrefix line "nameserver ".toList)).map
        (fun line => line.drop 11) := by
  induction lines generalizing acc with
  | nil => simp
  | cons line lines ih =>
    rw [List.foldl_cons, ih]
    unfold nameserverLine
    by_cases h : strings.HasPrefix (strings.TrimSpace line) "nameserver ".toList = true
    · have hp := (strings.TrimPrefix_of_HasPrefix _ _ h).1
      have hlen : "nameserver ".toList.length = 11 := rfl
      rw [hlen] at hp
      rw [if_pos h, List.map_cons, List.filter_cons, hp]
      simp only [h, if_true, List.map_cons, List.append_assoc, List.singleton_append]
    · rw [if_neg h, List.map_cons, List.filter_cons]
      simp only [h, Bool.false_eq_true, if_false]

theorem nameserver_entry (raw : Str)
    (h : strings.HasPrefix (strings.TrimSpace raw) "nameserver ".toList = true) :
    (strings.TrimSpace raw).drop 11 ≠ [] ∧
    ∀ last, ((strings.TrimSpace raw).drop 11).getLast? = some last →
      unicode.IsSpace last = false := by
  have hsplit := (strings.TrimPrefix_of_HasPrefix _ _ h).2
  have hlen : "nameserver ".toList.length = 11 := rfl
  rw [hlen] at hsplit
  constructor
  · intro hnil
    rw [hnil, List.append_nil] at hsplit
    have hlast : (strings.TrimSpace raw).getLast? = some ' ' := by rw [hsplit]; rfl
    have := strings.TrimSpace_getLast raw ' ' hlast
    revert this; decide
  · intro last hl
    apply strings.TrimSpace_getLast raw
    rw [hsplit, List.getLast?_append, hl]
    rfl

/-- C10, as the code has it: the `nameservers` list has, in file order, one
entry per line that after trimming begins with `nameserver `, and the entry is
that trimmed line without these eleven characters: it is not empty and does
not end in white space. `configured_servers` is the DNS list of the manager. -/
theorem getDNSInfo_nameservers (m : Manager) (output : Str) :
    ∃ info, getDNSInfo m (.ok output) =
        (some info, none, [Effect.command ["cat".toList, "/etc/resolv.conf".toList]]) ∧
      info.get "nameservers".toList =
        some ((((strings.Split output '\n').map strings.TrimSpace).filter
          (fun line => strings.HasPrefix line "nameserver ".toList)).map
          (fun line => line.drop 11)) ∧
      (∀ entries, info.get "nameservers".toList = some entries → ∀ entry ∈ entries,
        entry ≠ [] ∧ ∀ last, entry.getLast? = some last → unicode.IsSpace last = false) ∧
      info.get "configured_servers".toList = some m.dnsServers := by
  have hinfo : getDNSInfo m (.ok output) =
      (some [("nameservers".toList, (strings.Split output '\n').foldl nameserverLine []),
        ("configured_servers".toList, m.dnsServers)], none,
        [Effect.command ["cat".toList, "/etc/resolv.conf".toList]]) := rfl
  have hget : StrMap.get [("nameservers".toList, (strings.Split output '\n').foldl nameserverLine []),
        ("configured_servers".toList, m.dnsServers)] "nameservers".toList =
      some ((strings.Split output '\n').foldl nameserverLine []) := rfl
  refine ⟨_, hinfo, ?_, ?_, rfl⟩
  · rw [hget, foldl_nameserverLine, List.nil_append]
  · intro entries he entry hentry
    rw [hget, foldl_nameserverLine, List.nil_append] at he
    simp only [Option.some.injEq] at he
    subst he
    simp only [List.mem_map, List.mem_filter] at hentry
    obtain ⟨line, ⟨⟨raw, _, hraw⟩, hpre⟩, hdrop⟩ := hentry
    subst hraw; subst hdrop
    exact nameserver_entry raw hpre

/-- C10, as stated, fails: with two spaces after the keyword the entry keeps
the second one, so it begins with white space. -/
theorem getDNSInfo_leading_space :
    (getDNSInfo (NewManager "warp0".toList ["1.1.1.1".toList])
        (.ok "nameserver  1.1.1.1\n".toList)).1 =
      some [("nameservers".toList, [" 1.1.1.1".toList]),
        ("configured_servers".toList, ["1.1.1.1".toList])] ∧
    strings.TrimSpace " 1.1.1.1".toList ≠ " 1.1.1.1".toList := by
  decide

end network

/-! ## The status shown by the CLI -/

namespace cli

/-- C11: for every format string `handleStatus` returns nil, leaves the CLI
as it is and writes a fixed text: the JSON form when the format is exactly
`json`, the table form for every other string. Both report connected,
interface `warp0`, IP address `10.0.0.1`, DNS servers `1.1.1.1` and `1.0.0.1`,
uptime `2h 15m`, `1.2 GB` sent and `3.4 GB` received. The events do not depend
on the CLI, so they are the same after `handleConnect` or `handleDisconnect`,
which both return nil. The `status` command passes the value of its flag,
`table` when the flag is absent. -/
theorem handleStatus_hardcoded (c c2 : CLI) (format : Str) :
    (handleStatus c format).2.1 = none ∧
    (handleStatus c format).1 = c ∧
    stdoutText (handleStatus c format).2.2 =
      (if format = "json".toList then
        ("\x7b\n" ++
         "  \"bytes_received\": \"3.4 GB\",\n" ++
         "  \"bytes_sent\": \"1.2 GB\",\n" ++
         "  \"connected\": true,\n" ++
         "  \"dns_servers\": [\n" ++
         "    \"1.1.1.1\",\n" ++
         "    \"1.0.0.1\"\n" ++
         "  ],\n" ++
         "  \"interface\": \"warp0\",\n" ++
         "  \"ip_address\": \"10.0.0.1\",\n" ++
         "  \"uptime\": \"2h 15m\"\n" ++
         "\x7d\n").toList
      else
        ("┌─────────────────────────────────────────┐\n" ++
         "│              DARP Status                │\n" ++
         "├─────────────────────────────────────────┤\n" ++
         "│ Status: ✅ Connected                    │\n" ++
         "│ Interface: warp0                       │\n" ++
         "│ IP Address: 10.0.0.1                  │\n" ++
         "│ DNS Servers: 1.1.1.1, 1.0.0.1        │\n" ++
         "│ Uptime: 2h 15m                        │\n" ++
         "│ Data Sent: 1.2 GB                     │\n" ++
         "│ Data Received: 3.4 GB                │\n" ++
         "└─────────────────────────────────────────┘\n").toList) ∧
    (handleStatus c2 format).2.2 = (handleStatus c format).2.2 ∧
    (handleConnect c).2.1 = none ∧
    (handleDisconnect c).2.1 = none ∧
    (handleStatus (handleConnect c).1 format).2.2 = (handleStatus c format).2.2 ∧
    (handleStatus (handleDisconnect c).1 format).2.2 = (handleStatus c format).2.2 ∧
    statusRunE c (some format) = handleStatus c format ∧
    statusRunE c none = handleStatus c "table".toList := by
  have hjson : json.MarshalIndent statusLiteral =
      (("\x7b\n" ++
         "  \"bytes_received\": \"3.4 GB\",\n" ++
         "  \"bytes_sent\": \"1.2 GB\",\n" ++
         "  \"connected\": true,\n" ++
         "  \"dns_servers\": [\n" ++
         "    \"1.1.1.1\",\n" ++
         "    \"1.0.0.1\"\n" ++
         "  ],\n" ++
         "  \"interface\": \"warp0\",\n" ++
         "  \"ip_address\": \"10.0.0.1\",\n" ++
         "  \"uptime\": \"2h 15m\"\n" ++
         "\x7d").toList, none) := by decide
  by_cases h : format = "json".toList
  · subst h
    refine ⟨?_, ?_, ?_, ?_, rfl, rfl, rfl, rfl, rfl, rfl⟩
    · simp only [handleStatus, hjson, if_true]
    · simp only [handleStatus, hjson, if_true]
    · simp only [handleStatus, hjson, if_true]
      decide
    · simp only [handleStatus, hjson, if_true]
  · refine ⟨?_, ?_, ?_, ?_, rfl, rfl, rfl, rfl, rfl, rfl⟩
    · simp only [handleStatus, if_neg h]
    · simp only [handleStatus, if_neg h]
    · simp only [handleStatus, if_neg h]
      decide
    · simp only [handleStatus, if_neg h]

end cli

/-! ## The rendering determines the configuration -/

namespace fmt

theorem digitChar_value : ∀ k, k < 10 →
    (Nat.digitChar k).toNat - 48 = k ∧ (Nat.digitChar k).isDigit = true := by
  decide

theorem digitsValue_append (xs : Str) (d : Char) :
    digitsValue (xs ++ [d]) = digitsValue xs * 10 + (d.toNat - 48) := by
  simp [digitsValue, List.foldl_append]

/-- The digits `Nat.toDigitsCore` puts in front, given enough fuel, are
decimal digits that stand for the number. -/
theorem toDigitsCore_spec (fuel : Nat) : ∀ (n : Nat) (ds : Str), n < fuel →
    ∃ xs, Nat.toDigitsCore 10 fuel n ds = xs ++ ds ∧ digitsValue xs = n ∧
      (∀ c ∈ xs, c.isDigit = true) ∧ xs ≠ [] := by
  induction fuel with
  | zero => intro n ds h; omega
  | succ fuel ih =>
    intro n ds hn
    have hd := digitChar_value (n % 10) (Nat.mod_lt _ (by decide))
    unfold Nat.toDigitsCore
    by_cases h0 : n / 10 = 0
    · simp only [h0, if_true]
      refine ⟨[Nat.digitChar (n % 10)], rfl, ?_, ?_, by simp⟩
      · have : digitsValue [Nat.digitChar (n % 10)] = (Nat.digitChar (n % 10)).toNat - 48 := by
          simp [digitsValue]
        rw [this, hd.1]; omega
      · intro c hc
        simp only [List.mem_singleton] at hc
        subst hc; exact hd.2
    · simp only [h0, if_false]
      obtain ⟨xs, hxs, hval, hdig, _⟩ := ih (n / 10) (Nat.digitChar (n % 10) :: ds) (by omega)
      refine ⟨xs ++ [Nat.digitChar (n % 10)], ?_, ?_, ?_, by simp⟩
      · rw [hxs]; simp
      · rw [digitsValue_append, hval, hd.1]; omega
      · intro c hc
        rcases List.mem_append.mp hc with h | h
        · exact hdig c h
        · simp only [List.mem_singleton] at h
          subst h; exact hd.2

theorem formatNat_spec (n : Nat) :
    digitsValue (formatNat n) = n ∧ (∀ c ∈ formatNat n, c.isDigit = true) ∧ formatNat n ≠ [] := by
  obtain ⟨xs, hxs, hval, hdig, hne⟩ := toDigitsCore_spec (n + 1) n [] (by omega)
  have : formatNat n = xs := by
    simp only [formatNat, Nat.toDigits, hxs, List.append_nil]
  rw [this]
  exact ⟨hval, hdig, hne⟩

theorem formatInt_chars (n : Int) : ∀ c ∈ formatInt n, c = '-' ∨ c.isDigit = true := by
  intro c hc
  unfold formatInt at hc
  split_ifs at hc
  · rcases List.mem_cons.mp hc with h | h
    · exact Or.inl h
    · exact Or.inr ((formatNat_spec _).2.1 c h)
  · exact Or.inr ((formatNat_spec _).2.1 c hc)

theorem formatInt_no_lineFeed (n : Int) : '\n' ∉ formatInt n := by
  intro h
  rcases formatInt_chars n _ h with h | h
  · revert h; decide
  · revert h; decide

theorem formatNat_injective (a b : Nat) (h : formatNat a = formatNat b) : a = b := by
  rw [← (formatNat_spec a).1, ← (formatNat_spec b).1, h]

theorem formatNat_head_ne_minus (a : Nat) (rest : Str) : formatNat a ≠ '-' :: rest := by
  intro h
  have := (formatNat_spec a).2.1 '-' (by rw [h]; simp)
  revert this; decide

theorem formatInt_injective (a b : Int) (h : formatInt a = formatInt b) : a = b := by
  unfold formatInt at h
  split_ifs at h with ha hb hb
  · have := formatNat_injective _ _ (List.cons_injective h)
    omega
  · exact absurd h.symm (formatNat_head_ne_minus _ _)
  · exact absurd h (formatNat_head_ne_minus _ _)
  · have := formatNat_injective _ _ h
    omega

end fmt

/-- Two texts cut at the first occurrence of a character agree part by part. -/
theorem append_cons_inj_of_not_mem {α : Type} (x : α) :
    ∀ (a b r s : List α), x ∉ a → x ∉ b → a ++ x :: r = b ++ x :: s → a = b ∧ r = s := by
  intro a
  induction a with
  | nil =>
    intro b r s _ hb h
    cases b with
    | nil => simpa using h
    | cons y ys =>
      simp only [List.nil_append, List.cons_append, List.cons.injEq] at h
      exact absurd (by rw [← h.1]; simp) hb
  | cons z zs ih =>
    intro b r s ha hb h
    cases b with
    | nil =>
      simp only [List.nil_append, List.cons_append, List.cons.injEq] at h
      exact absurd (by rw [h.1]; simp) ha
    | cons y ys =>
      simp only [List.cons_append, List.cons.injEq] at h
      obtain ⟨h1, h2⟩ := ih ys r s (fun hm => ha (List.mem_cons_of_mem _ hm))
        (fun hm => hb (List.mem_cons_of_mem _ hm)) h.2
      exact ⟨by rw [h.1, h1], h2⟩

/-- A run of elements with a property, followed by a rest whose first element
lacks it, is split in one way only. -/
theorem run_unique {α : Type} (P : α → Prop) :
    ∀ (u v r s : List α), (∀ a ∈ u, P a) → (∀ a ∈ v, P a) →
      (∃ b t, r = b :: t ∧ ¬ P b) → (∃ b t, s = b :: t ∧ ¬ P b) →
      u ++ r = v ++ s → u = v ∧ r = s := by
  intro u
  induction u with
  | nil =>
    intro v r s _ hv hr _ h
    cases v with
    | nil => exact ⟨rfl, h⟩
    | cons y ys =>
      obtain ⟨b, t, hrb, hPb⟩ := hr
      subst hrb
      simp only [List.nil_append, List.cons_append, List.cons.injEq] at h
      exact absurd (h.1 ▸ hv y (by simp)) hPb
  | cons z zs ih =>
    intro v r s hu hv hr hs h
    cases v with
    | nil =>
      obtain ⟨b, t, hsb, hPb⟩ := hs
      subst hsb
      simp only [List.nil_append, List.cons_append, List.cons.injEq] at h
      exact absurd (h.1 ▸ hu z (by simp)) hPb
    | cons y ys =>
      simp only [List.cons_append, List.cons.injEq] at h
      obtain ⟨h1, h2⟩ := ih ys r s (fun a ha => hu a (List.mem_cons_of_mem _ ha))
        (fun a ha => hv a (List.mem_cons_of_mem _ ha)) hr hs h.2
      exact ⟨by rw [h.1, h1], h2⟩

theorem map_append_left_injective (pre : Str) (xs ys : List Str)
    (h : xs.map (fun x => pre ++ x) = ys.map (fun x => pre ++ x)) : xs = ys := by
  induction xs generalizing ys with
  | nil =>
    cases ys with
    | nil => rfl
    | cons y ys => simp at h
  | cons x xs ih =>
    cases ys with
    | nil => simp at h
    | cons y ys =>
      simp only [List.map_cons, List.cons.injEq] at h
      rw [List.append_cancel_left h.1, ih ys h.2]

namespace warp

/-- Lines without line feeds are determined by their text. -/
theorem linesText_injective : ∀ (l₁ l₂ : List Str), (∀ l ∈ l₁, '\n' ∉ l) → (∀ l ∈ l₂, '\n' ∉ l) →
    linesText l₁ = linesText l₂ → l₁ = l₂ := by
  intro l₁
  induction l₁ with
  | nil =>
    intro l₂ _ _ h
    cases l₂ with
    | nil => rfl
    | cons y ys => simp [linesText] at h
  | cons x xs ih =>
    intro l₂ h1 h2 h
    cases l₂ with
    | nil => simp [linesText] at h
    | cons y ys =>
      have hx : linesText (x :: xs) = x ++ '\n' :: linesText xs := by
        simp [linesText, List.flatMap_cons]
      have hy : linesText (y :: ys) = y ++ '\n' :: linesText ys := by
        simp [linesText, List.flatMap_cons]
      rw [hx, hy] at h
      obtain ⟨hxy, hrest⟩ := append_cons_inj_of_not_mem '\n' x y _ _
        (h1 x (by simp)) (h2 y (by simp)) h
      rw [hxy, ih ys (fun l hl => h1 l (List.mem_cons_of_mem _ hl))
        (fun l hl => h2 l (List.mem_cons_of_mem _ hl)) hrest]

end warp

namespace warp

theorem configLines_eq (c : Config) :
    configLines c = "[Interface]".toList :: ("PrivateKey = ".toList ++ c.Interface.PrivateKey) ::
      (c.Interface.Addresses.map (fun a => "Address = ".toList ++ a) ++
        (c.Interface.DNS.map (fun d => "DNS = ".toList ++ d) ++
          (("MTU = ".toList ++ fmt.formatInt c.MTU) :: [] :: c.Peers.flatMap peerLines))) := by
  simp [configLines, peerLines, List.append_assoc]
  rfl

theorem peerLines_eq (peer : Peer) :
    peerLines peer = "[Peer]".toList :: ("PublicKey = ".toList ++ peer.PublicKey) ::
      ("Endpoint = ".toList ++ peer.Endpoint) ::
      (peer.AllowedIPs.map (fun ip => "AllowedIPs = ".toList ++ ip) ++ [[]]) := rfl

theorem flatMap_peerLines_injective : ∀ (ps qs : List Peer),
    ps.flatMap peerLines = qs.flatMap peerLines → ps = qs := by
  intro ps
  induction ps with
  | nil =>
    intro qs h
    cases qs with
    | nil => rfl
    | cons q qs =>
      rw [List.flatMap_cons, peerLines_eq] at h
      simp at h
  | cons p ps ih =>
    intro qs h
    cases qs with
    | nil =>
      rw [List.flatMap_cons, peerLines_eq] at h
      simp at h
    | cons q qs =>
      rw [List.flatMap_cons, List.flatMap_cons, peerLines_eq, peerLines_eq] at h
      simp only [List.cons_append, List.cons.injEq, true_and, List.append_assoc,
        List.nil_append] at h
      obtain ⟨hpub, hep, hrest⟩ := h
      have hrun := run_unique (fun l : Str => l ≠ [])
        (p.AllowedIPs.map (fun ip => "AllowedIPs = ".toList ++ ip))
        (q.AllowedIPs.map (fun ip => "AllowedIPs = ".toList ++ ip))
        ([] :: ps.flatMap peerLines) ([] :: qs.flatMap peerLines)
        (by intro a ha; simp only [List.mem_map] at ha; obtain ⟨ip, _, rfl⟩ := ha; simp)
        (by intro a ha; simp only [List.mem_map] at ha; obtain ⟨ip, _, rfl⟩ := ha; simp)
        ⟨[], _, rfl, by simp⟩ ⟨[], _, rfl, by simp⟩ hrest
      have hips := map_append_left_injective _ _ _ hrun.1
      have htail := ih qs (List.cons_injective hrun.2)
      have hp : p = q := by
        cases p; cases q
        simp only [Peer.mk.injEq]
        exact ⟨List.append_cancel_left hpub, List.append_cancel_left hep, hips⟩
      rw [hp, htail]

/-- The lines of the format determine the configuration. -/
theorem configLines_injective (c₁ c₂ : Config) (h : configLines c₁ = configLines c₂) :
    c₁ = c₂ := by
  rw [configLines_eq, configLines_eq] at h
  simp only [List.cons.injEq, true_and] at h
  obtain ⟨hkey, hrest⟩ := h
  have hstartA : ∀ (l : List Str) (a : Str), a ∈ l.map (fun a => "Address = ".toList ++ a) →
      a.head? = some 'A' := by
    intro l a ha
    simp only [List.mem_map] at ha
    obtain ⟨x, _, rfl⟩ := ha
    rfl
  have hstartD : ∀ (l : List Str) (a : Str), a ∈ l.map (fun d => "DNS = ".toList ++ d) →
      a.head? = some 'D' := by
    intro l a ha
    simp only [List.mem_map] at ha
    obtain ⟨x, _, rfl⟩ := ha
    rfl
  have hafterA : ∀ (c : Config), ∃ b t,
      c.Interface.DNS.map (fun d => "DNS = ".toList ++ d) ++
        (("MTU = ".toList ++ fmt.formatInt c.MTU) :: [] :: c.Peers.flatMap peerLines) = b :: t ∧
      ¬ b.head? = some 'A' := by
    intro c
    cases c.Interface.DNS with
    | nil =>
      refine ⟨_, _, rfl, ?_⟩
      intro h
      have h2 : some 'M' = some 'A' := h
      revert h2; decide
    | cons d ds =>
      refine ⟨_, _, rfl, ?_⟩
      intro h
      have h2 : some 'D' = some 'A' := h
      revert h2; decide
  have hA := run_unique (fun l : Str => l.head? = some 'A') _ _ _ _
    (hstartA c₁.Interface.Addresses) (hstartA c₂.Interface.Addresses)
    (hafterA c₁) (hafterA c₂) hrest
  have hafterD : ∀ (x : Str), ¬ ("MTU = ".toList ++ x).head? = some 'D' := by
    intro x h
    have h2 : some 'M' = some 'D' := h
    revert h2; decide
  have hD := run_unique (fun l : Str => l.head? = some 'D') _ _ _ _
    (hstartD c₁.Interface.DNS) (hstartD c₂.Interface.DNS)
    ⟨_, _, rfl, hafterD _⟩ ⟨_, _, rfl, hafterD _⟩ hA.2
  have htail := hD.2
  simp only [List.cons.injEq, true_and] at htail
  have hmtu := fmt.formatInt_injective _ _ (List.append_cancel_left htail.1)
  have hpeers := flatMap_peerLines_injective _ _ htail.2
  have haddr := map_append_left_injective _ _ _ hA.1
  have hdns := map_append_left_injective _ _ _ hD.1
  have hpk := List.append_cancel_left hkey
  obtain ⟨peers₁, ⟨pk₁, addr₁, dns₁⟩, mtu₁⟩ := c₁
  obtain ⟨peers₂, ⟨pk₂, addr₂, dns₂⟩, mtu₂⟩ := c₂
  simp only at hmtu hpeers haddr hdns hpk
  rw [hmtu, hpeers, haddr, hdns, hpk]

theorem configLines_no_lineFeed (c : Config) (hc : noLineFeed c) :
    ∀ l ∈ configLines c, '\n' ∉ l := by
  obtain ⟨hpk, haddr, hdns, hpeers⟩ := hc
  have hlit : ∀ (pre s : Str), '\n' ∉ pre → '\n' ∉ s → '\n' ∉ pre ++ s := by
    intro pre s h1 h2 h
    rcases List.mem_append.mp h with h | h
    · exact h1 h
    · exact h2 h
  intro l hl
  rw [configLines_eq] at hl
  simp only [List.mem_cons, List.mem_append, List.mem_map, List.mem_flatMap] at hl
  rcases hl with h | h | ⟨a, ha, rfl⟩ | ⟨d, hd, rfl⟩ | h | h | ⟨peer, hpeer, hl⟩
  · subst h; decide
  · subst h; exact hlit _ _ (by decide) hpk
  · exact hlit _ _ (by decide) (haddr a ha)
  · exact hlit _ _ (by decide) (hdns d hd)
  · subst h; exact hlit _ _ (by decide) (fmt.formatInt_no_lineFeed _)
  · subst h; simp
  · obtain ⟨hpub, hep, hips⟩ := hpeers peer hpeer
    rw [peerLines_eq] at hl
    simp only [List.mem_cons, List.mem_append, List.mem_map, List.mem_singleton,
      List.not_mem_nil, or_false] at hl
    rcases hl with h | h | h | ⟨ip, hip, rfl⟩ | h
    · subst h; decide
    · subst h; exact hlit _ _ (by decide) hpub
    · subst h; exact hlit _ _ (by decide) hep
    · exact hlit _ _ (by decide) (hips ip hip)
    · subst h; simp

/-- C12: for configurations none of whose string fields contains a line
feed, the text `createWireGuardConfig` renders determines the configuration:
equal texts come from equal private keys, address lists, DNS lists, MTUs and
peer lists. -/
theorem wgConfig_injective (c₁ c₂ : Config) (h₁ : noLineFeed c₁) (h₂ : noLineFeed c₂)
    (h : wgConfig c₁ = wgConfig c₂) : c₁ = c₂ := by
  rw [wgConfig_eq_linesText, wgConfig_eq_linesText] at h
  exact configLines_injective c₁ c₂
    (linesText_injective _ _ (configLines_no_lineFeed c₁ h₁) (configLines_no_lineFeed c₂ h₂) h)

/-- The statement of C12 at the configuration of `GetWARPConfig` with the
private key `AAAA`. -/
theorem wgConfig_injective_witness :
    noLineFeed
      { Peers := [{ PublicKey := "bmXOC+F1FxEMF9dyiK2H5/1SUtzH0JuVo51h2wPfgyo=".toList,
                    Endpoint := "engage.cloudflareclient.com:2408".toList,
                    AllowedIPs := ["0.0.0.0/0".toList, "::/0".toList] }],
        Interface := { PrivateKey := "AAAA".toList, Addresses := ["172.16.0.2/32".toList],
                       DNS := ["1.1.1.1".toList, "1.0.0.1".toList] },
        MTU := 1280 } ∧
    ({ Peers := [{ PublicKey := "bmXOC+F1FxEMF9dyiK2H5/1SUtzH0JuVo51h2wPfgyo=".toList,
                   Endpoint := "engage.cloudflareclient.com:2408".toList,
                   AllowedIPs := ["0.0.0.0/0".toList, "::/0".toList] }],
       Interface := { PrivateKey := "AAAA".toList, Addresses := ["172.16.0.2/32".toList],
                      DNS := ["1.1.1.1".toList, "1.0.0.1".toList] },
       MTU := 1280 } : Config) =
      { Peers := [{ PublicKey := "bmXOC+F1FxEMF9dyiK2H5/1SUtzH0JuVo51h2wPfgyo=".toList,
                    Endpoint := "engage.cloudflareclient.com:2408".toList,
                    AllowedIPs := ["0.0.0.0/0".toList, "::/0".toList] }],
        Interface := { PrivateKey := "AAAA".toList, Addresses := ["172.16.0.2/32".toList],
                       DNS := ["1.1.1.1".toList, "1.0.0.1".toList] },
        MTU := 1279 + 1 } :=
  ⟨by unfold noLineFeed; decide,
    wgConfig_injective _ _ (by unfold noLineFeed; decide) (by unfold noLineFeed; decide) rfl⟩

end warp

/-! ## Parsing of `wg show` -/

namespace strings

theorem Contains_mem (sub : Str) : ∀ (s : Str), Contains s sub = true → ∀ c ∈ sub, c ∈ s := by
  intro s
  induction s with
  | nil =>
    intro h c hc
    simp only [Contains, List.isEmpty_iff] at h
    subst h
    simp at hc
  | cons x xs ih =>
    intro h c hc
    simp only [Contains, Bool.or_eq_true] at h
    rcases h with h | h
    · rw [List.isPrefixOf_iff_prefix] at h
      exact h.subset hc
    · exact List.mem_cons_of_mem _ (ih h c hc)

/-- The first piece of `Split` ends at the first separator and the other
pieces are those of the text after it. -/
theorem Split_eq (sep : Char) : ∀ (s : Str),
    Split s sep = s.takeWhile (fun c => c != sep) ::
      (match s.dropWhile (fun c => c != sep) with
        | [] => []
        | _ :: rest => Split rest sep) := by
  intro s
  induction s with
  | nil => rfl
  | cons c cs ih =>
    by_cases h : c = sep
    · subst h
      simp [Split]
    · have hne : (c != sep) = true := by simpa using h
      rw [Split, if_neg h, ih, List.takeWhile_cons, List.dropWhile_cons]
      simp only [hne, if_true]

theorem dropWhile_ne_of_mem (sep : Char) : ∀ (s : Str), sep ∈ s →
    ∃ rest, s.dropWhile (fun c => c != sep) = sep :: rest := by
  intro s
  induction s with
  | nil => intro h; simp at h
  | cons c cs ih =>
    intro h
    by_cases hc : c = sep
    · subst hc
      exact ⟨cs, by simp⟩
    · have hne : (c != sep) = true := by simpa using hc
      have hmem : sep ∈ cs := by
        rcases List.mem_cons.mp h with h | h
        · exact absurd h.symm hc
        · exact h
      obtain ⟨rest, hrest⟩ := ih hmem
      exact ⟨rest, by rw [List.dropWhile_cons]; simp only [hne, if_true]; exact hrest⟩

theorem Split_second (s : Str) (h : ':' ∈ s) :
    (Split s ':')[1]? = some (warp.secondField s) ∧ 2 ≤ (Split s ':').length := by
  obtain ⟨rest, hrest⟩ := dropWhile_ne_of_mem ':' s h
  rw [Split_eq ':' s, hrest]
  simp only [warp.secondField, hrest, List.drop_succ_cons, List.drop_zero]
  rw [Split_eq ':' rest]
  simp

end strings

namespace network

theorem StrMap.set_cons_ne {β : Type} (a : Str × β) (m : StrMap β) (k : Str) (v : β)
    (h : (a.1 == k) = false) : StrMap.set (a :: m) k v = a :: StrMap.set m k v := by
  unfold StrMap.set
  simp only [List.any_cons, h, Bool.false_or, List.map_cons, Bool.false_eq_true, if_false]
  split_ifs <;> rfl

theorem StrMap.set_cons_eq {β : Type} (a : Str × β) (m : StrMap β) (k : Str) (v : β)
    (h : (a.1 == k) = true) :
    StrMap.set (a :: m) k v = (k, v) :: m.map (fun kv => if kv.1 == k then (k, v) else kv) := by
  unfold StrMap.set
  simp only [List.any_cons, h, Bool.true_or, List.map_cons, if_true]

theorem StrMap.get_cons {β : Type} (a : Str × β) (m : StrMap β) (k : Str) :
    StrMap.get (a :: m) k = if (a.1 == k) = true then some a.2 else StrMap.get m k := by
  unfold StrMap.get
  rw [List.find?_cons]
  cases h : (a.1 == k) <;> simp

theorem StrMap.get_map_other {β : Type} (m : StrMap β) (k k2 : Str) (v : β) (h : k ≠ k2) :
    StrMap.get (m.map (fun kv => if kv.1 == k then (k, v) else kv)) k2 = StrMap.get m k2 := by
  induction m with
  | nil => rfl
  | cons a m ih =>
    rw [List.map_cons, StrMap.get_cons, StrMap.get_cons, ih]
    by_cases ha : (a.1 == k) = true
    · have hak : a.1 = k := by simpa using ha
      have h1 : ((k, v).1 == k2) = false := by simpa using h
      have h2 : (a.1 == k2) = false := by rw [hak]; simpa using h
      simp only [ha, if_true, h1, h2, Bool.false_eq_true, if_false]
    · have ha2 : (a.1 == k) = false := by simpa using ha
      simp only [ha2, Bool.false_eq_true, if_false]

theorem StrMap.get_set_same {β : Type} (m : StrMap β) (k : Str) (v : β) :
    StrMap.get (StrMap.set m k v) k = some v := by
  induction m with
  | nil => simp [StrMap.set, StrMap.get]
  | cons a m ih =>
    by_cases ha : (a.1 == k) = true
    · rw [StrMap.set_cons_eq a m k v ha, StrMap.get_cons]
      simp
    · have ha2 : (a.1 == k) = false := by simpa using ha
      rw [StrMap.set_cons_ne a m k v ha2, StrMap.get_cons, ih]
      simp only [ha2, Bool.false_eq_true, if_false]

theorem StrMap.get_set_other {β : Type} (m : StrMap β) (k k2 : Str) (v : β) (h : k ≠ k2) :
    StrMap.get (StrMap.set m k v) k2 = StrMap.get m k2 := by
  induction m with
  | nil =>
    have h1 : (k == k2) = false := by simpa using h
    simp [StrMap.set, StrMap.get, h1]
  | cons a m ih =>
    by_cases ha : (a.1 == k) = true
    · have hak : a.1 = k := by simpa using ha
      have h1 : ((k, v).1 == k2) = false := by simpa using h
      have h2 : (a.1 == k2) = false := by rw [hak]; simpa using h
      rw [StrMap.set_cons_eq a m k v ha, StrMap.get_cons, StrMap.get_cons,
        StrMap.get_map_other m k k2 v h]
      simp only [h1, h2, Bool.false_eq_true, if_false]
    · have ha2 : (a.1 == k) = false := by simpa using ha
      rw [StrMap.set_cons_ne a m k v ha2, StrMap.get_cons, StrMap.get_cons, ih]

theorem StrMap.keys_set {β : Type} (m : StrMap β) (k : Str) (v : β) :
    ∀ x ∈ StrMap.keys (StrMap.set m k v), x = k ∨ x ∈ StrMap.keys m := by
  intro x hx
  unfold StrMap.keys StrMap.set at *
  split_ifs at hx
  · simp only [List.map_map, List.mem_map, Function.comp] at hx
    obtain ⟨kv, hkv, rfl⟩ := hx
    by_cases h : (kv.1 == k) = true
    · left; simp [h]
    · right
      simp only [h, if_false]
      exact List.mem_map.mpr ⟨kv, hkv, rfl⟩
  · simp only [List.map_append, List.mem_append, List.map_cons, List.map_nil,
      List.mem_singleton] at hx
    rcases hx with h | h
    · exact Or.inr h
    · exact Or.inl h

/-- The value a loop of updates leaves under a key: the value of the last line
that sets the key, or the value from before the loop. -/
theorem foldl_get_last {β : Type} (upd : StrMap β → Str → StrMap β) (k : Str)
    (sets : Str → Bool) (g : Str → β)
    (h : ∀ info line, StrMap.get (upd info line) k =
      if sets line = true then some (g line) else StrMap.get info k) :
    ∀ (lines : List Str) (info : StrMap β),
      StrMap.get (lines.foldl upd info) k =
        match (lines.filter sets).getLast? with
        | some line => some (g line)
        | none => StrMap.get info k := by
  intro lines
  induction lines with
  | nil => intro info; rfl
  | cons line lines ih =>
    intro info
    rw [List.foldl_cons, ih, h, List.filter_cons]
    by_cases hs : sets line = true
    · simp only [hs, if_true]
      cases hl : (lines.filter sets) with
      | nil => simp
      | cons x xs =>
        rw [List.getLast?_cons_cons]
        cases hg : (x :: xs).getLast? with
        | none => simp at hg
        | some y => rfl
    · have hs2 : sets line = false := by simpa using hs
      simp only [hs2, Bool.false_eq_true, if_false]

end network

namespace warp
open network

theorem marker_colon (line marker : Str) (hm : ':' ∈ marker)
    (h : strings.Contains line marker = true) : ':' ∈ line :=
  strings.Contains_mem marker line h ':' hm

theorem secondPart_of_mem (line : Str) (h : ':' ∈ line) :
    secondPart line = .ok (strings.TrimSpace (secondField line)) := by
  unfold secondPart
  rw [(strings.Split_second line h).1]

/-- The loop body of `GetInterfaceInfo` never panics. -/
theorem interfaceInfoLine_ok (info : StrMap Str) (line : Str) :
    interfaceInfoLine (.ok info) line = .ok (interfaceInfoUpdate info line) := by
  unfold interfaceInfoLine interfaceInfoUpdate setsInterface setsPublicKey setsListeningPort
  simp only
  by_cases h1 : strings.Contains line "interface:".toList = true
  · rw [if_pos h1, if_pos h1, secondPart_of_mem line (marker_colon line _ (by decide) h1)]
  · have h1f : strings.Contains line "interface:".toList = false := by simpa using h1
    rw [if_neg h1, if_neg h1]
    by_cases h2 : strings.Contains line "public key:".toList = true
    · rw [if_pos h2, secondPart_of_mem line (marker_colon line _ (by decide) h2)]
      simp only [h1f, h2, Bool.not_false, Bool.and_self, if_true]
    · have h2f : strings.Contains line "public key:".toList = false := by simpa using h2
      rw [if_neg h2]
      by_cases h3 : strings.Contains line "listening port:".toList = true
      · rw [if_pos h3, secondPart_of_mem line (marker_colon line _ (by decide) h3)]
        simp only [h1f, h2f, h3, Bool.not_false, Bool.and_self, Bool.and_true, if_true,
          Bool.false_eq_true, if_false, Bool.and_false]
      · have h3f : strings.Contains line "listening port:".toList = false := by simpa using h3
        rw [if_neg h3]
        simp only [h1f, h2f, h3f, Bool.not_false, Bool.and_self, Bool.and_true,
          Bool.false_eq_true, if_false, Bool.and_false]

theorem foldl_interfaceInfoLine (lines : List Str) : ∀ (info : StrMap Str),
    lines.foldl interfaceInfoLine (.ok info) = .ok (lines.foldl interfaceInfoUpdate info) := by
  induction lines with
  | nil => intro info; rfl
  | cons line lines ih =>
    intro info
    rw [List.foldl_cons, List.foldl_cons, interfaceInfoLine_ok, ih]

theorem sets_exclusive (line : Str) :
    (setsInterface line = true → setsPublicKey line = false ∧ setsListeningPort line = false) ∧
    (setsPublicKey line = true → setsListeningPort line = false) := by
  unfold setsInterface setsPublicKey setsListeningPort
  cases strings.Contains line "interface:".toList <;>
    cases strings.Contains line "public key:".toList <;> simp

theorem interfaceInfoUpdate_interface (info : StrMap Str) (line : Str) :
    StrMap.get (interfaceInfoUpdate info line) "interface".toList =
      if setsInterface line = true then some (strings.TrimSpace (secondField line))
      else StrMap.get info "interface".toList := by
  unfold interfaceInfoUpdate
  by_cases h1 : setsInterface line = true
  · rw [if_pos h1, if_pos h1, StrMap.get_set_same]
  · rw [if_neg h1, if_neg h1]
    split_ifs
    · exact StrMap.get_set_other _ _ _ _ (by decide)
    · exact StrMap.get_set_other _ _ _ _ (by decide)
    · rfl

theorem interfaceInfoUpdate_public_key (info : StrMap Str) (line : Str) :
    StrMap.get (interfaceInfoUpdate info line) "public_key".toList =
      if setsPublicKey line = true then some (strings.TrimSpace (secondField line))
      else StrMap.get info "public_key".toList := by
  unfold interfaceInfoUpdate
  by_cases h1 : setsInterface line = true
  · have h2 := ((sets_exclusive line).1 h1).1
    rw [if_pos h1, StrMap.get_set_other _ _ _ _ (by decide)]
    simp only [h2, Bool.false_eq_true, if_false]
  · rw [if_neg h1]
    by_cases h2 : setsPublicKey line = true
    · rw [if_pos h2, if_pos h2, StrMap.get_set_same]
    · rw [if_neg h2, if_neg h2]
      split_ifs
      · exact StrMap.get_set_other _ _ _ _ (by decide)
      · rfl

theorem interfaceInfoUpdate_listening_port (info : StrMap Str) (line : Str) :
    StrMap.get (interfaceInfoUpdate info line) "listening_port".toList =
      if setsListeningPort line = true then some (strings.TrimSpace (secondField line))
      else StrMap.get info "listening_port".toList := by
  unfold interfaceInfoUpdate
  by_cases h1 : setsInterface line = true
  · have h3 := ((sets_exclusive line).1 h1).2
    rw [if_pos h1, StrMap.get_set_other _ _ _ _ (by decide)]
    simp only [h3, Bool.false_eq_true, if_false]
  · rw [if_neg h1]
    by_cases h2 : setsPublicKey line = true
    · have h3 := (sets_exclusive line).2 h2
      rw [if_pos h2, StrMap.get_set_other _ _ _ _ (by decide)]
      simp only [h3, Bool.false_eq_true, if_false]
    · rw [if_neg h2]
      by_cases h3 : setsListeningPort line = true
      · rw [if_pos h3, if_pos h3, StrMap.get_set_same]
      · rw [if_neg h3, if_neg h3]

theorem interfaceInfoUpdate_keys (lines : List Str) : ∀ (info : StrMap Str),
    (∀ k ∈ StrMap.keys info, k = "interface".toList ∨ k = "public_key".toList ∨
      k = "listening_port".toList) →
    ∀ k ∈ StrMap.keys (lines.foldl interfaceInfoUpdate info), k = "interface".toList ∨
      k = "public_key".toList ∨ k = "listening_port".toList := by
  induction lines with
  | nil => intro info h; exact h
  | cons line lines ih =>
    intro info h
    rw [List.foldl_cons]
    apply ih
    intro k hk
    unfold interfaceInfoUpdate at hk
    split_ifs at hk
    · rcases StrMap.keys_set _ _ _ k hk with h1 | h1
      · exact Or.inl h1
      · exact h k h1
    · rcases StrMap.keys_set _ _ _ k hk with h1 | h1
      · exact Or.inr (Or.inl h1)
      · exact h k h1
    · rcases StrMap.keys_set _ _ _ k hk with h1 | h1
      · exact Or.inr (Or.inr h1)
      · exact h k h1
    · exact h k hk

theorem getLast_map {β : Type} (l : List Str) (g : Str → β) (d : Option β) (hd : d = none) :
    (match l.getLast? with
      | some line => some (g line)
      | none => d) = l.getLast?.map g := by
  subst hd
  cases l.getLast? <;> rfl

/-- C13, as the code has it: `GetInterfaceInfo` returns for every output of
`wg show darp`, with no index out of range, because a line that contains one
of the three markers has a `:` and so splits into at least two parts. The
value under a key is the trimmed text between the first and the second `:`
(or up to the end of the line) of the last line that sets the key, where a
line sets only the key of the first marker it contains in the order
`interface:`, `public key:`, `listening port:`. The result has no other key. -/
theorem GetInterfaceInfo_total (m : Manager) (output err line : Str) :
    (∃ info, GetInterfaceInfo m (.ok output) =
        .ok (some info, none, [Effect.command ["wg".toList, "show".toList, "darp".toList]]) ∧
      StrMap.get info "interface".toList =
        (((strings.Split output '\n').filter setsInterface).getLast?).map
          (fun l => strings.TrimSpace (secondField l)) ∧
      StrMap.get info "public_key".toList =
        (((strings.Split output '\n').filter setsPublicKey).getLast?).map
          (fun l => strings.TrimSpace (secondField l)) ∧
      StrMap.get info "listening_port".toList =
        (((strings.Split output '\n').filter setsListeningPort).getLast?).map
          (fun l => strings.TrimSpace (secondField l)) ∧
      ∀ k ∈ StrMap.keys info, k = "interface".toList ∨ k = "public_key".toList ∨
        k = "listening_port".toList) ∧
    GetInterfaceInfo m (.error err) =
      .ok (none, some ("failed to get interface info: ".toList ++ err),
        [Effect.command ["wg".toList, "show".toList, "darp".toList]]) ∧
    ((strings.Contains line "interface:".toList = true ∨
      strings.Contains line "public key:".toList = true ∨
      strings.Contains line "listening port:".toList = true) →
      2 ≤ (strings.Split line ':').length ∧
      (strings.Split line ':')[1]? = some (secondField line)) := by
  refine ⟨⟨(strings.Split output '\n').foldl interfaceInfoUpdate [], ?_, ?_, ?_, ?_, ?_⟩, rfl, ?_⟩
  · unfold GetInterfaceInfo
    simp only [foldl_interfaceInfoLine]
  · rw [foldl_get_last interfaceInfoUpdate _ setsInterface _ interfaceInfoUpdate_interface]
    exact getLast_map _ _ _ rfl
  · rw [foldl_get_last interfaceInfoUpdate _ setsPublicKey _ interfaceInfoUpdate_public_key]
    exact getLast_map _ _ _ rfl
  · rw [foldl_get_last interfaceInfoUpdate _ setsListeningPort _
      interfaceInfoUpdate_listening_port]
    exact getLast_map _ _ _ rfl
  · exact interfaceInfoUpdate_keys _ [] (by intro k hk; simp [StrMap.keys] at hk)
  · intro h
    have hc : ':' ∈ line := by
      rcases h with h | h | h
      · exact marker_colon line _ (by decide) h
      · exact marker_colon line _ (by decide) h
      · exact marker_colon line _ (by decide) h
    exact ⟨(strings.Split_second line hc).2, (strings.Split_second line hc).1⟩

/-- C13, as stated, fails when a line contains two markers: the last line
that contains `public key:` also contains `interface:`, so it sets
`interface`, and `public_key` keeps the value `A` of the line before, not the
text `public key` between the first and second `:` of that last line. -/
theorem GetInterfaceInfo_two_markers :
    GetInterfaceInfo (NewManager none)
        (.ok "public key: A\ninterface: public key: B".toList) =
      .ok (some [("public_key".toList, "A".toList),
          ("interface".toList, "public key".toList)], none,
        [Effect.command ["wg".toList, "show".toList, "darp".toList]]) ∧
    (((strings.Split "public key: A\ninterface: public key: B".toList '\n').filter
        (fun l => strings.Contains l "public key:".toList)).getLast?).map
        (fun l => strings.TrimSpace (secondField l)) = some "public key".toList ∧
    network.StrMap.get [("public_key".toList, "A".toList),
        ("interface".toList, "public key".toList)] "public_key".toList ≠
      some "public key".toList :=
  ⟨by rfl, by decide, by decide⟩

end warp

/-! ## The name of the interface -/

namespace warp

/-- C14, what the code does: `GetStatus` reports the interface `warp0` and
`DefaultConfig` names `warp0`, which the network manager passes to
`ip addr show`; a successful `Connect` writes `/etc/wireguard/darp.conf` and
runs `wg-quick up darp`, `Disconnect` runs `wg-quick down darp`, and
`GetInterfaceInfo` runs `wg show darp`. The two names differ. -/
theorem interface_name_differs (cfg : Option Config) :
    network.StrMap.get (GetStatus (NewManager cfg)) "interface".toList =
      some (Any.string "warp0".toList) ∧
    config.DefaultConfig.Network.Interface = "warp0".toList ∧
    (network.getInterfaceInfo
        (network.NewManager config.DefaultConfig.Network.Interface
          config.DefaultConfig.Network.DNS) (.ok [])).2.2 =
      [Effect.command ["ip".toList, "addr".toList, "show".toList, "warp0".toList]] ∧
    (Connect (NewManager none)
        { rand := .ok (List.replicate 32 0), mkdirAll := none, writeFile := none,
          lookPath := none, wgQuickUp := none }).2.1 = none ∧
    Effect.command ["sudo".toList, "wg-quick".toList, "up".toList, "darp".toList] ∈
      (Connect (NewManager none)
        { rand := .ok (List.replicate 32 0), mkdirAll := none, writeFile := none,
          lookPath := none, wgQuickUp := none }).2.2 ∧
    (writtenData (Connect (NewManager none)
        { rand := .ok (List.replicate 32 0), mkdirAll := none, writeFile := none,
          lookPath := none, wgQuickUp := none }).2.2).map (fun w => w.1) =
      ["/etc/wireguard/darp.conf".toList] ∧
    (Disconnect
        (Connect (NewManager none)
          { rand := .ok (List.replicate 32 0), mkdirAll := none, writeFile := none,
            lookPath := none, wgQuickUp := none }).1
        { wgQuickDown := none, remove := RemoveOutcome.removed }).2.2 =
      [Effect.command ["sudo".toList, "wg-quick".toList, "down".toList, "darp".toList],
       Effect.removeFile "/etc/wireguard/darp.conf".toList] ∧
    GetInterfaceInfo (NewManager cfg) (.ok []) =
      .ok (some [], none, [Effect.command ["wg".toList, "show".toList, "darp".toList]]) ∧
    "warp0".toList ≠ "darp".toList := by
  refine ⟨?_, rfl, rfl, by decide, by decide, by decide, by decide, rfl, by decide⟩
  cases cfg <;> rfl

end warp

end Darp
